import Mathlib

/-!
Shallow embedding of `scripts/py/compare.py` (aws-crt-benchmarker) and proofs
about its specification claims.

Modelling conventions, chosen once and used throughout:

* Python strings are Lean `String`s; all string manipulation is implemented
  here over `String.data` (`List Char`) with structural or fuel-based
  recursion, so every definition evaluates inside the kernel.
* Python's `re` digit class `\d` is modelled as the ASCII digits `0`-`9`
  (the claims never exercise non-ASCII digits).
* Python's `int()` on the digit strings produced by the script is modelled as
  a plain decimal-digit parser (sign/whitespace tolerance of `int()` is never
  exercised by the script's inputs).
* Python floats are modelled as exact rationals (`Rat`); `math.log10` is
  modelled as the exact base-10 logarithm.  This is faithful for every input
  magnitude the script can meet short of astronomically large file counts.
* Exceptions are modelled with `Except String`; the carried string mirrors the
  Python message.
-/

deriving instance DecidableEq for Except

namespace Compare

/-- Decimal digits of `n`, least significant first, via explicit fuel so the
kernel can evaluate it.  `digitsLEAux fuel 0 = []`. -/
def digitsLEAux : Nat → Nat → List Char → List Char
  | 0, _, acc => acc
  | _ + 1, 0, acc => acc
  | fuel + 1, n, acc => digitsLEAux fuel (n / 10) (acc ++ [Char.ofNat (48 + n % 10)])

/-- Decimal digit values of `n`, least significant first (`[]` for `0`). -/
def digitsLE : Nat → List Nat :=
  fun n => digitsLEFuel n n
where
  digitsLEFuel : Nat → Nat → List Nat
    | 0, _ => []
    | _ + 1, 0 => []
    | fuel + 1, n => n % 10 :: digitsLEFuel fuel (n / 10)

/-- Character for a single decimal digit value. -/
def digitChar : Nat → Char
  | 0 => '0' | 1 => '1' | 2 => '2' | 3 => '3' | 4 => '4'
  | 5 => '5' | 6 => '6' | 7 => '7' | 8 => '8' | _ => '9'

/-- Most-significant-first decimal digit characters of `n` (`"0"` for zero),
i.e. Python's `str(n)` for a natural number. -/
def toDecChars (n : Nat) : List Char :=
  match (digitsLE n).reverse with
  | [] => ['0']
  | ds => ds.map digitChar

/-- Python `str(n)` for a natural number. -/
def toDecString (n : Nat) : String :=
  ⟨toDecChars n⟩

/-- Value of a most-significant-first list of decimal digit characters
(the model of `int()` applied to a string of ASCII digits). -/
def parseDigitsVal (ds : List Char) : Nat :=
  ds.foldl (fun a c => 10 * a + (c.toNat - 48)) 0

/-- Model of Python `int()` restricted to the unsigned decimal strings the
script feeds it: every character must be an ASCII digit and the string must be
non-empty, otherwise `int()` raises `ValueError`. -/
def pyInt (ds : List Char) : Option Nat :=
  if ds ≠ [] ∧ ds.all Char.isDigit then some (parseDigitsVal ds) else none

/-- Python `str.split` on a single separator character: always returns at
least one (possibly empty) part and keeps empty parts. -/
def pySplit (sep : Char) : List Char → List (List Char)
  | [] => [[]]
  | c :: cs =>
    match pySplit sep cs with
    | [] => [[]]
    | h :: t => if c = sep then [] :: h :: t else (c :: h) :: t

/-- Auxiliary for `stripAll`, with fuel so the recursion is structural. -/
def stripAllAux (pat : List Char) : Nat → List Char → List Char
  | 0, l => l
  | _ + 1, [] => []
  | fuel + 1, c :: cs =>
    if pat.isPrefixOf (c :: cs) then stripAllAux pat fuel ((c :: cs).drop pat.length)
    else c :: stripAllAux pat fuel cs

/-- Python `s.replace(pat, "")` for a non-empty pattern: removes all
non-overlapping occurrences, scanning left to right. -/
def stripAll (pat : List Char) (l : List Char) : List Char :=
  stripAllAux pat l.length l

/-- Auxiliary for `underscoreFmt`: input is least-significant-first digit
characters, `k` counts digits emitted since the last separator. -/
def underscoreAux : List Char → Nat → List Char
  | [], _ => []
  | c :: cs, k =>
    if k = 3 then '_' :: c :: underscoreAux cs 1 else c :: underscoreAux cs (k + 1)

/-- Python `f"{n:_}"`: decimal rendering with `_` between three-digit groups. -/
def underscoreFmt (n : Nat) : String :=
  match digitsLE n with
  | [] => "0"
  | ds => ⟨(underscoreAux (ds.map digitChar) 0).reverse⟩

/-- Python's end-of-pattern anchor `$` as used by `re.match`: it matches at
the end of the string or just before a single trailing newline. -/
def endAnchor (l : List Char) : Bool :=
  l = [] ∨ l = ['\n']

/-- Size units recognised by `size_from_str` with their byte multipliers, in
the alternation order of the regex `(\d+)(KiB|MiB|GiB|bytes|byte)$`. -/
def sizeUnits : List (List Char × Nat) :=
  [("KiB".data, 1024), ("MiB".data, 1024 * 1024), ("GiB".data, 1024 * 1024 * 1024),
   ("bytes".data, 1), ("byte".data, 1)]

/-- Embedding of `size_from_str` (compare.py lines 71-85): return size in
bytes given a string like `5GiB`, `10KiB` or `1byte`; any string the regex
rejects raises an exception naming the offending string. -/
def size_from_str (s : String) : Except String Nat :=
  let p := s.data.span Char.isDigit
  let err : Except String Nat :=
    .error ("Illegal size \"" ++ s ++ "\". Expected something like \"1KiB\"")
  if p.1 = [] then err
  else
    match sizeUnits.find? (fun u => u.1.isPrefixOf p.2 && endAnchor (p.2.drop u.1.length)) with
    | some u => .ok (parseDigitsVal p.1 * u.2)
    | none => err

/-- Embedding of `parse_workload_name` (compare.py lines 88-121): parse a
workload name like `upload-15MiB-1x` or `download-5GiB-10_000x-ram` into
`(action, fileSizeStr, numFiles, filesOnDisk)`. -/
def parse_workload_name (name : String) :
    Except String (String × String × Nat × Bool) :=
  let n1 := stripAll ".json".data name.data
  let fod : Bool := ¬ "-ram".data.isSuffixOf n1
  let n2 := if "-ram".data.isSuffixOf n1 then n1.take (n1.length - 4) else n1
  match pySplit '-' n2 with
  | action :: sizeStr :: c1 :: crest =>
    if action ≠ "upload".data ∧ action ≠ "download".data then
      .error ("Invalid action: " ++ ⟨action⟩ ++ ". Must be \"upload\" or \"download\"")
    else
      let countPart := List.intercalate ['-'] (c1 :: crest)
      if ¬ ("x".data.isSuffixOf countPart) then
        .error ("Invalid count format: " ++ ⟨countPart⟩ ++ ". Must end with \"x\"")
      else
        match pyInt ((countPart.take (countPart.length - 1)).filter (fun c => c ≠ '_')) with
        | none => .error ("invalid literal for int() with base 10: " ++ ⟨countPart⟩)
        | some numFiles => .ok (⟨action⟩, ⟨sizeStr⟩, numFiles, fod)
  | _ =>
    .error ("Invalid workload name: " ++ ⟨n2⟩ ++
      ". Expected: \x7baction\x7d-\x7bsize\x7d-\x7bcount\x7dx[-ram]")

/-- One transfer task (compare.py lines 139-143). -/
structure Task where
  action : String
  key : String
  size : Nat
deriving DecidableEq, Repr

/-- Embedding of `int_width` (compare.py line 133): `int(math.log10(num_files))
+ 1 if num_files > 1 else 1`, with `math.log10` modelled as exact, so the
branch value is the decimal digit count of `num_files`. -/
def int_width (numFiles : Nat) : Nat :=
  if 1 < numFiles then (digitsLE numFiles).length else 1

/-- Embedding of `dirname` (compare.py line 130): `f'{file_size_str}-{num_files:_}x'`. -/
def dirname (fileSizeStr : String) (numFiles : Nat) : String :=
  fileSizeStr ++ "-" ++ underscoreFmt numFiles ++ "x"

/-- Embedding of `int_fmt.format(i)` (compare.py lines 134 and 138): decimal
rendering of `i` zero-padded on the left to width `w`. -/
def int_fmt (w : Nat) (i : Nat) : String :=
  ⟨List.replicate (w - (toDecChars i).length) '0' ++ toDecChars i⟩

/-- Key of the file at (1-based) index `i` (compare.py line 141):
`f'{action}/{dirname}/{filename}'`. -/
def task_key (action fileSizeStr : String) (numFiles i : Nat) : String :=
  action ++ "/" ++ dirname fileSizeStr numFiles ++ "/" ++ int_fmt (int_width numFiles) i

/-- Embedding of the task-generation loop (compare.py lines 129-146), after
the name has been parsed and the size resolved. -/
def generateTasksFrom (action fileSizeStr : String) (fileSize numFiles : Nat) :
    List Task :=
  (List.range numFiles).map fun i =>
    ⟨action, task_key action fileSizeStr numFiles (i + 1), fileSize⟩

/-- Embedding of `generate_tasks_from_workload_name` (compare.py lines
124-146). -/
def generate_tasks_from_workload_name (name : String) :
    Except String (List Task × Bool) :=
  match parse_workload_name name with
  | .error e => .error e
  | .ok (action, fileSizeStr, numFiles, fod) =>
    match size_from_str fileSizeStr with
    | .error e => .error e
    | .ok fileSize => .ok (generateTasksFrom action fileSizeStr fileSize numFiles, fod)

/-- Schema version written by the script (compare.py line 24). -/
def VERSION : Nat := 2

/-- Default repeat-count bound (compare.py line 25). -/
def DEFAULT_MAX_REPEAT_COUNT : Nat := 10

/-- Default repeat-seconds bound (compare.py line 26). -/
def DEFAULT_MAX_REPEAT_SECS : Nat := 600

/-- The workload dictionary built by `parse_payload` (compare.py lines
192-199 and 215-222). -/
structure Workload where
  version : Nat
  filesOnDisk : Bool
  checksum : Option String
  maxRepeatCount : Nat
  maxRepeatSecs : Nat
  tasks : List Task
deriving DecidableEq, Repr

/-- Workload assembled from combined tasks with the library defaults. -/
def mkWorkload (tasks : List Task) (filesOnDisk : Bool) : Workload :=
  ⟨VERSION, filesOnDisk, none, DEFAULT_MAX_REPEAT_COUNT, DEFAULT_MAX_REPEAT_SECS, tasks⟩

/-- Projection of one element of a top-level JSON array, restricted to the
keys `parse_payload` reads (compare.py lines 175-190): `tasks`,
`filesOnDisk`, `action`, `fileSize`, `numFiles`.  `none` models an absent
key. -/
structure JItem where
  tasks : Option (List Task)
  filesOnDisk : Option Bool
  action : Option String
  fileSize : Option String
  numFiles : Option Nat
deriving DecidableEq, Repr

/-- Top-level shape of a loaded payload JSON document. -/
inductive JsonTop where
  | arr (items : List JItem)
  | obj (w : Workload)
deriving DecidableEq, Repr

/-- Loop of the name-token branch of `parse_payload` (compare.py lines
206-213): concatenate each token's tasks and AND the `filesOnDisk` flags. -/
def namesFold : List String → List Task → Bool → Except String (List Task × Bool)
  | [], acc, fod => .ok (acc, fod)
  | nm :: rest, acc, fod =>
    match generate_tasks_from_workload_name nm with
    | .error e => .error e
    | .ok (ts, f) => namesFold rest (acc ++ ts) (fod && f)

/-- Loop of the JSON-array branch of `parse_payload` (compare.py lines
173-190).  A fragment that carries `tasks` is spliced in and ANDs its
`filesOnDisk` (when present) into the accumulator; a compact spec element is
expanded through the workload-name generator and *assigns* its own
`filesOnDisk` (default `true`) to the accumulator, exactly as the Python
assignment on line 185 does. -/
def arrayFold : List JItem → List Task → Bool → Except String (List Task × Bool)
  | [], acc, fod => .ok (acc, fod)
  | it :: rest, acc, fod =>
    match it.tasks with
    | some ts =>
      arrayFold rest (acc ++ ts)
        (match it.filesOnDisk with
         | some b => fod && b
         | none => fod)
    | none =>
      match it.action with
      | none => .error "KeyError: action"
      | some a =>
        match it.fileSize with
        | none => .error "KeyError: fileSize"
        | some fs =>
          match it.numFiles with
          | none => .error "KeyError: numFiles"
          | some nf =>
            let fod2 := it.filesOnDisk.getD true
            match generate_tasks_from_workload_name
                (a ++ "-" ++ fs ++ "-" ++ toDecString nf ++ "x") with
            | .error e => .error e
            | .ok (ts, _) => arrayFold rest (acc ++ ts) fod2

/-- Embedding of `parse_payload` (compare.py lines 149-227).  `readJson`
stands for opening and JSON-decoding the named file (an `.error` models a
missing file or a JSON decode failure); the function only consults it on the
single-`.json`-argument branch. -/
def parse_payload (payloadArgs : List String)
    (readJson : String → Except String JsonTop) : Except String Workload :=
  if payloadArgs.length == 1 && ".json".data.isSuffixOf (payloadArgs.headD "").data then
    match readJson (payloadArgs.headD "") with
    | .error e => .error e
    | .ok (.arr items) =>
      match arrayFold items [] true with
      | .error e => .error e
      | .ok (allTasks, fod) => .ok (mkWorkload allTasks fod)
    | .ok (.obj w) => .ok w
  else
    match namesFold payloadArgs [] true with
    | .error e => .error e
    | .ok (allTasks, fod) => .ok (mkWorkload allTasks fod)

/-- Match a literal at the current position, returning the rest. -/
def matchLit (pat l : List Char) : Option (List Char) :=
  if pat.isPrefixOf l then some (l.drop pat.length) else none

/-- Python's `\s` class (ASCII part): space, tab, newline, CR, VT, FF. -/
def isPySpace (c : Char) : Bool :=
  c = ' ' || c = '\t' || c = '\n' || c = '\r' || c = '\x0b' || c = '\x0c'

/-- Python's `[\d.]` class restricted to ASCII. -/
def isNumDot (c : Char) : Bool :=
  c.isDigit || c = '.'

/-- Greedy `+` over a character class: at least one matching character.  None
of the regexes in `parse_metrics` needs backtracking, because every `+` class
is disjoint from the character that follows it. -/
def spanGroup (p : Char → Bool) (l : List Char) : Option (List Char × List Char) :=
  let s := l.span p
  if s.1 = [] then none else some s

/-- Leftmost-match search, the model of `re.search`: try the matcher at every
start position, leftmost first. -/
def searchPat {α : Type} (m : List Char → Option α) : List Char → Option α
  | [] => m []
  | c :: cs =>
    match m (c :: cs) with
    | some a => some a
    | none => searchPat m cs

/-- Anchored match of `Run:(\d+)\s+Secs:([\d.]+)\s+Gb/s:([\d.]+)` (compare.py
line 403), returning the three capture groups. -/
def matchRunAt (l : List Char) : Option (List Char × List Char × List Char) := do
  let r1 ← matchLit "Run:".data l
  let (g1, r2) ← spanGroup Char.isDigit r1
  let (_, r3) ← spanGroup isPySpace r2
  let r4 ← matchLit "Secs:".data r3
  let (g2, r5) ← spanGroup isNumDot r4
  let (_, r6) ← spanGroup isPySpace r5
  let r7 ← matchLit "Gb/s:".data r6
  let (g3, _) ← spanGroup isNumDot r7
  some (g1, g2, g3)

/-- Anchored match of `{header}\s+Median:([\d.]+)\s+Mean:([\d.]+)\s+Min:([\d.]+)
\s+Max:([\d.]+)` (compare.py lines 411 and 419), returning the four capture
groups. -/
def matchAggAt (header : List Char) (l : List Char) :
    Option (List Char × List Char × List Char × List Char) := do
  let r1 ← matchLit header l
  let (_, r2) ← spanGroup isPySpace r1
  let r3 ← matchLit "Median:".data r2
  let (g1, r4) ← spanGroup isNumDot r3
  let (_, r5) ← spanGroup isPySpace r4
  let r6 ← matchLit "Mean:".data r5
  let (g2, r7) ← spanGroup isNumDot r6
  let (_, r8) ← spanGroup isPySpace r7
  let r9 ← matchLit "Min:".data r8
  let (g3, r10) ← spanGroup isNumDot r9
  let (_, r11) ← spanGroup isPySpace r10
  let r12 ← matchLit "Max:".data r11
  let (g4, _) ← spanGroup isNumDot r12
  some (g1, g2, g3, g4)

/-- Anchored match of `Peak RSS:([\d.]+)\s+MiB` (compare.py line 427). -/
def matchRssAt (l : List Char) : Option (List Char) := do
  let r1 ← matchLit "Peak RSS:".data l
  let (g, r2) ← spanGroup isNumDot r1
  let (_, r3) ← spanGroup isPySpace r2
  let _ ← matchLit "MiB".data r3
  some g

/-- Model of Python `float()` on a string drawn from the class `[\d.]+`: valid
iff it has at least one digit and at most one dot; the value is exact. -/
def parseFloat (cs : List Char) : Option Rat :=
  match pySplit '.' cs with
  | [ds] =>
    if ds ≠ [] ∧ ds.all Char.isDigit then some ((parseDigitsVal ds : Nat) : Rat) else none
  | [ds, fs] =>
    if (ds ++ fs) ≠ [] ∧ (ds ++ fs).all Char.isDigit then
      some ((parseDigitsVal ds : Rat) + (parseDigitsVal fs : Rat) / ((10 : Rat) ^ fs.length))
    else none
  | _ => none

/-- One per-run metrics line (compare.py line 408). -/
structure RunEntry where
  run : Nat
  secs : Rat
  gbps : Rat
deriving DecidableEq, Repr

/-- The metrics dictionary built by `parse_metrics` (compare.py lines
388-399).  `none` models the initial `None` values. -/
structure Metrics where
  runs : List RunEntry
  throughput_median : Option Rat
  throughput_mean : Option Rat
  throughput_min : Option Rat
  throughput_max : Option Rat
  duration_median : Option Rat
  duration_mean : Option Rat
  duration_min : Option Rat
  duration_max : Option Rat
  peak_rss : Option Rat
deriving DecidableEq, Repr

/-- The initial metrics value, with every field unset. -/
def emptyMetrics : Metrics :=
  ⟨[], none, none, none, none, none, none, none, none, none⟩

/-- Python `float()` lifted to `Except`, raising `ValueError` on bad input. -/
def floatOrErr (cs : List Char) : Except String Rat :=
  match parseFloat cs with
  | some q => .ok q
  | none => .error ("could not convert string to float: " ++ ⟨cs⟩)

/-- Processing of one line of runner output (compare.py lines 402-429): the
four patterns are searched independently and each hit updates the metrics
dictionary; a `float()` failure aborts with `ValueError`. -/
def lineStep (m : Metrics) (l : List Char) : Except String Metrics := do
  let m ←
    match searchPat matchRunAt l with
    | none => pure m
    | some (g1, g2, g3) => do
      let secs ← floatOrErr g2
      let gbps ← floatOrErr g3
      pure { m with runs := m.runs ++ [⟨parseDigitsVal g1, secs, gbps⟩] }
  let m ←
    match searchPat (matchAggAt "Overall Throughput (Gb/s)".data) l with
    | none => pure m
    | some (g1, g2, g3, g4) => do
      let a ← floatOrErr g1
      let b ← floatOrErr g2
      let c ← floatOrErr g3
      let d ← floatOrErr g4
      pure { m with throughput_median := some a, throughput_mean := some b,
                    throughput_min := some c, throughput_max := some d }
  let m ←
    match searchPat (matchAggAt "Overall Duration (Secs)".data) l with
    | none => pure m
    | some (g1, g2, g3, g4) => do
      let a ← floatOrErr g1
      let b ← floatOrErr g2
      let c ← floatOrErr g3
      let d ← floatOrErr g4
      pure { m with duration_median := some a, duration_mean := some b,
                    duration_min := some c, duration_max := some d }
  match searchPat matchRssAt l with
  | none => pure m
  | some g => do
    let v ← floatOrErr g
    pure { m with peak_rss := some v }

/-- Fold of `lineStep` over the lines, aborting on the first exception. -/
def metricsFold : List (List Char) → Metrics → Except String Metrics
  | [], m => .ok m
  | l :: ls, m =>
    match lineStep m l with
    | .error e => .error e
    | .ok m2 => metricsFold ls m2

/-- Embedding of `parse_metrics` (compare.py lines 379-431): line-oriented
regex extraction over the captured output. -/
def parse_metrics (output : String) : Except String Metrics :=
  metricsFold (pySplit '\n' output.data) emptyMetrics

/-- Python `f"{s:<{w}}"`: left justification to width `w` with spaces. -/
def ljust (s : String) (w : Nat) : String :=
  ⟨s.data ++ List.replicate (w - s.data.length) ' '⟩

/-- String of `k` copies of a character (Python `c * k`). -/
def repChar (c : Char) (k : Nat) : String :=
  ⟨List.replicate k c⟩

/-- Python `s[1:-1]`. -/
def sliceMid (s : String) : String :=
  ⟨(s.data.drop 1).dropLast⟩

/-- Decimal string with exactly two places for a value given in hundredths. -/
def centsStr (n : Nat) : String :=
  toDecString (n / 100) ++ "." ++ int_fmt 2 (n % 100)

/-- Python `f"{x:.2f}"` on the exact rational model of a float: the value
rounded to hundredths (idealising the float's round-half-even at the third
decimal, which the claims never exercise). -/
def fmtQ2 (q : Rat) : String :=
  let c : Int := Int.fdiv (200 * q.num + (q.den : Int)) (2 * (q.den : Int))
  if c < 0 then "-" ++ centsStr c.natAbs else centsStr c.natAbs

/-- One table row with a metric label and two value cells (the repeated
f-string shape of compare.py lines 454-485). -/
def row3 (a b c : String) (mw vw : Nat) : String :=
  "│ " ++ ljust a (mw - 2) ++ " │ " ++ ljust b (vw - 2) ++ " │ " ++ ljust c (vw - 2) ++ " │"

/-- Formatting of an optional float with `f"{x:<{w}.2f}"`: Python raises
`TypeError` (unsupported format string) when the value is `None`. -/
def fmtOpt (x : Option Rat) (w : Nat) : Except String String :=
  match x with
  | some q => .ok (ljust (fmtQ2 q) w)
  | none => .error "unsupported format string passed to NoneType.__format__"

/-- One numeric table row; fails like Python if either side is `None`. -/
def numRow (label : String) (x1 x2 : Option Rat) (mw vw : Nat) : Except String String := do
  let a ← fmtOpt x1 (vw - 2)
  let b ← fmtOpt x2 (vw - 2)
  pure ("│ " ++ ljust label (mw - 2) ++ " │ " ++ a ++ " │ " ++ b ++ " │")

/-- Embedding of `format_comparison_table` (compare.py lines 434-491),
returning the list of table lines (the script joins them with newlines). -/
def format_comparison_table (c1 b1 : String) (m1 : Metrics) (c2 b2 : String)
    (m2 : Metrics) : Except String (List String) := do
  let label1 := c1 ++ ":" ++ b1
  let label2 := c2 ++ ":" ++ b2
  let mw : Nat := 25
  let vw : Nat := max (max label1.data.length label2.data.length) 15
  let sep := repChar '─' mw ++ "┬" ++ repChar '─' vw ++ "┬" ++ repChar '─' vw
  let throughputRows ←
    if m1.throughput_median.isSome && m2.throughput_median.isSome then do
      let r1 ← numRow "  Median" m1.throughput_median m2.throughput_median mw vw
      let r2 ← numRow "  Mean" m1.throughput_mean m2.throughput_mean mw vw
      let r3 ← numRow "  Min" m1.throughput_min m2.throughput_min mw vw
      let r4 ← numRow "  Max" m1.throughput_max m2.throughput_max mw vw
      pure [r1, r2, r3, r4]
    else
      pure [row3 "  (metrics not available)" "" "" mw vw]
  let durationRows ←
    if m1.duration_median.isSome && m2.duration_median.isSome then do
      let r1 ← numRow "  Median" m1.duration_median m2.duration_median mw vw
      let r2 ← numRow "  Mean" m1.duration_mean m2.duration_mean mw vw
      let r3 ← numRow "  Min" m1.duration_min m2.duration_min mw vw
      let r4 ← numRow "  Max" m1.duration_max m2.duration_max mw vw
      pure [r1, r2, r3, r4]
    else
      pure [row3 "  (metrics not available)" "" "" mw vw]
  let rssRow :=
    match m1.peak_rss, m2.peak_rss with
    | some a, some b => row3 "Peak RSS (MiB)" (fmtQ2 a) (fmtQ2 b) mw vw
    | x1, x2 =>
      row3 "Peak RSS (MiB)" (match x1 with | some a => fmtQ2 a | none => "N/A")
        (match x2 with | some b => fmtQ2 b | none => "N/A") mw vw
  pure (["", "Comparing: " ++ label1 ++ " vs " ++ label2, "",
         "┌" ++ sliceMid sep ++ "┐",
         row3 "Metric" label1 label2 mw vw,
         "├" ++ sliceMid sep ++ "┤",
         row3 "Throughput (Gb/s)" "" "" mw vw] ++
        throughputRows ++
        [row3 "Duration (Secs)" "" "" mw vw] ++
        durationRows ++
        [rssRow] ++
        ["└" ++ sliceMid sep ++ "┘", ""])

/-- Embedding of `get_build_type` (compare.py lines 269-280): fixed lookup
from client name to build family, raising on anything unrecognised. -/
def get_build_type (clientName : String) : Except String String :=
  if clientName = "crt-c" then .ok "aws-c-s3"
  else if ["crt-python", "boto3-crt", "boto3-classic", "cli-crt", "cli-classic"].contains clientName then
    .ok "python"
  else if ["crt-java", "sdk-java-client-crt", "sdk-java-client-classic", "sdk-java-tm-crt",
      "sdk-java-tm-classic"].contains clientName then
    .ok "java"
  else if clientName = "sdk-rust-tm" then .ok "rust"
  else .error ("Unknown client: " ++ clientName)

/-- A client name is recognised iff `get_build_type` accepts it.  The runner
dispatch in `run_benchmark` (compare.py lines 315-357) tests membership of
exactly the same name sets. -/
def recognizedClient (clientName : String) : Bool :=
  match get_build_type clientName with
  | .ok _ => true
  | .error _ => false

/-- Externally observable pipeline events: process spawns (tagged with the
client index where one applies), the printed comparison table, diagnostic
stream lines, and the process exit code.  Verbose informational logging goes
to stdout and is not claim-relevant, so it is not recorded. -/
inductive PEvent where
  | spawnPrep
  | spawnFetch (i : Nat)
  | spawnCheckout (i : Nat)
  | spawnClear (i : Nat)
  | spawnBuild (i : Nat)
  | spawnBench (i : Nat)
  | printTable (tbl : List String)
  | errLine (s : String)
  | exitCode (n : Nat)
deriving DecidableEq, Repr

/-- Command-line arguments of the comparison (compare.py lines 495-508); the
fields not consulted by the modelled control flow (bucket, region,
throughput) are omitted. -/
structure Args where
  client1 : String
  client1Branch : String
  client1Repo : String
  client2 : String
  client2Branch : String
  client2Repo : String
deriving Repr

/-- Exit codes and captured stdout of every external process the pipeline may
spawn, in program order.  Nonzero means failure. -/
structure Env where
  prepExit : Nat
  fetchExit1 : Nat
  checkoutExit1 : Nat
  clearExit1 : Nat
  buildExit1 : Nat
  benchExit1 : Nat
  benchOut1 : String
  fetchExit2 : Nat
  checkoutExit2 : Nat
  clearExit2 : Nat
  buildExit2 : Nat
  benchExit2 : Nat
  benchOut2 : String
deriving Repr

/-- Embedding of `prep_files` (compare.py lines 230-247): spawns the prep
tool and raises on a nonzero exit. -/
def prep_files (prepExit : Nat) : List PEvent × Except String Unit :=
  ([.spawnPrep], if prepExit ≠ 0 then .error "File preparation failed" else .ok ())

/-- Embedding of `checkout_branch` (compare.py lines 250-266): `git fetch`
then `git checkout`, each spawn gated on the previous one succeeding. -/
def checkout_branch (i : Nat) (repoPath branch : String) (fetchExit checkoutExit : Nat) :
    List PEvent × Except String Unit :=
  if fetchExit ≠ 0 then
    ([.spawnFetch i], .error ("Git fetch failed in " ++ repoPath))
  else if checkoutExit ≠ 0 then
    ([.spawnFetch i, .spawnCheckout i],
     .error ("Git checkout failed for branch " ++ branch ++ " in " ++ repoPath))
  else
    ([.spawnFetch i, .spawnCheckout i], .ok ())

/-- Embedding of `rebuild_client` (compare.py lines 283-299): the build type
is resolved *before* any process is spawned, so an unknown client raises with
no spawn; a clear failure is only a stdout warning; a build failure is
fatal. -/
def rebuild_client (i : Nat) (clientName : String) (clearExit buildExit : Nat) :
    List PEvent × Except String Unit :=
  match get_build_type clientName with
  | .error e => ([], .error e)
  | .ok _ =>
    if buildExit ≠ 0 then
      ([.spawnClear i, .spawnBuild i], .error ("Build failed for " ++ clientName))
    else
      ([.spawnClear i, .spawnBuild i], .ok ())

/-- Embedding of `run_benchmark` (compare.py lines 302-376): the runner
command is selected by client name (same recognised set as
`get_build_type`); on a nonzero exit the captured stdout/stderr are echoed to
the diagnostic stream before raising. -/
def run_benchmark (i : Nat) (clientName : String) (benchExit : Nat) (benchOut : String) :
    List PEvent × Except String String :=
  if recognizedClient clientName then
    if benchExit ≠ 0 then
      ([.spawnBench i, .errLine ("Error running benchmark for " ++ clientName ++ ":"),
        .errLine benchOut, .errLine ""],
       .error ("Benchmark failed for " ++ clientName))
    else
      ([.spawnBench i], .ok benchOut)
  else
    ([], .error ("Unknown client: " ++ clientName))

/-- Sequencing with the `try/except` of `main` (compare.py lines 512-558): a
step's events happen; on failure the handler prints one `Error:` line to the
diagnostic stream and exits with code 1, otherwise the continuation runs. -/
def andThen {α : Type} (p : List PEvent × Except String α) (k : α → List PEvent) :
    List PEvent :=
  match p with
  | (evs, .ok a) => evs ++ k a
  | (evs, .error e) => evs ++ [.errLine ("Error: " ++ e), .exitCode 1]

/-- Embedding of the body of `main` (compare.py lines 512-558) as the trace
of observable events.  `payloadRes` is the outcome of `parse_payload`
(modelled separately); the temp-file write emits no event. -/
def comparePipeline (a : Args) (payloadRes : Except String Workload) (env : Env) :
    List PEvent :=
  match payloadRes with
  | .error e => [.errLine ("Error: " ++ e), .exitCode 1]
  | .ok _ =>
    andThen (prep_files env.prepExit) fun _ =>
    andThen (checkout_branch 1 a.client1Repo a.client1Branch env.fetchExit1 env.checkoutExit1) fun _ =>
    andThen (rebuild_client 1 a.client1 env.clearExit1 env.buildExit1) fun _ =>
    andThen (run_benchmark 1 a.client1 env.benchExit1 env.benchOut1) fun out1 =>
    andThen ([], parse_metrics out1) fun m1 =>
    andThen (checkout_branch 2 a.client2Repo a.client2Branch env.fetchExit2 env.checkoutExit2) fun _ =>
    andThen (rebuild_client 2 a.client2 env.clearExit2 env.buildExit2) fun _ =>
    andThen (run_benchmark 2 a.client2 env.benchExit2 env.benchOut2) fun out2 =>
    andThen ([], parse_metrics out2) fun m2 =>
    andThen ([], format_comparison_table a.client1 a.client1Branch m1 a.client2 a.client2Branch m2) fun tbl =>
    [.printTable tbl, .exitCode 0]

/-- Value of a most-significant-first list of decimal digit values. -/
def valMSF (l : List Nat) : Nat :=
  l.foldl (fun a d => 10 * a + d) 0

/-- Left zero-padding of a digit-value list to width `w`. -/
def padL (w : Nat) (l : List Nat) : List Nat :=
  List.replicate (w - l.length) 0 ++ l

/-- The `filesOnDisk` contribution of one workload-name token (`false` iff it
carries `-ram`), defaulting to `true` on a token that fails to parse. -/
def nameFod (nm : String) : Bool :=
  match generate_tasks_from_workload_name nm with
  | .ok (_, b) => b
  | .error _ => true

/-- The update that `parse_payload`'s JSON-array loop actually applies to the
running `filesOnDisk` for one element: a fragment with `tasks` ANDs its flag
in when present, while a compact spec element replaces the running value with
its own flag (default `true`). -/
def codeFodStep (b : Bool) (it : JItem) : Bool :=
  match it.tasks with
  | some _ =>
    match it.filesOnDisk with
    | some v => b && v
    | none => b
  | none => it.filesOnDisk.getD true

/-- Claim-side definition (C3 wording): each JSON element contributes its
`filesOnDisk` field, defaulting to `true` when absent, and the workload's
flag is the AND of all contributions. -/
def specCombinedFod (items : List JItem) : Bool :=
  items.all fun it => it.filesOnDisk.getD true

/-- Claim-side definition (C6 wording): the exact size-token grammar
`^\d+(KiB|MiB|GiB|bytes|byte)$` with no whitespace tolerance — the string is
precisely a non-empty ASCII digit run followed by one of the five units. -/
def specSizeTokenGrammar (s : String) : Bool :=
  sizeUnits.any fun u =>
    u.1.isSuffixOf s.data &&
      (let pre := s.data.take (s.data.length - u.1.length)
       decide (pre ≠ []) && pre.all Char.isDigit && decide (pre ++ u.1 = s.data))

/-- A line that none of the four metric patterns matches anywhere. -/
def lineMatchesNone (l : List Char) : Bool :=
  (searchPat matchRunAt l).isNone &&
    (searchPat (matchAggAt "Overall Throughput (Gb/s)".data) l).isNone &&
    (searchPat (matchAggAt "Overall Duration (Secs)".data) l).isNone &&
    (searchPat matchRssAt l).isNone

/-- A metric set whose aggregate quadruples are all-or-nothing per side, as
`parse_metrics` always produces them: each quadruple is either entirely
absent or entirely present. -/
def quadWf (m : Metrics) : Prop :=
  ((m.throughput_median = none ∧ m.throughput_mean = none ∧
      m.throughput_min = none ∧ m.throughput_max = none) ∨
    (∃ a b c d, m.throughput_median = some a ∧ m.throughput_mean = some b ∧
      m.throughput_min = some c ∧ m.throughput_max = some d)) ∧
  ((m.duration_median = none ∧ m.duration_mean = none ∧
      m.duration_min = none ∧ m.duration_max = none) ∨
    (∃ a b c d, m.duration_median = some a ∧ m.duration_mean = some b ∧
      m.duration_min = some c ∧ m.duration_max = some d))

/-- Claim-side definition (C9 wording): the table renders, for each of
Throughput and Duration, the four Median/Mean/Min/Max rows with two-decimal
formatting exactly when the aggregate quadruple is present on both sides and
a single `(metrics not available)` row otherwise, and a Peak RSS row in which
`N/A` is substituted only for a side lacking the value. -/
def specTable (c1 b1 : String) (m1 : Metrics) (c2 b2 : String) (m2 : Metrics) :
    List String :=
  let label1 := c1 ++ ":" ++ b1
  let label2 := c2 ++ ":" ++ b2
  let mw : Nat := 25
  let vw : Nat := max (max label1.data.length label2.data.length) 15
  let sep := repChar '─' mw ++ "┬" ++ repChar '─' vw ++ "┬" ++ repChar '─' vw
  let tRows :=
    if m1.throughput_median.isSome && m1.throughput_mean.isSome &&
        m1.throughput_min.isSome && m1.throughput_max.isSome &&
        m2.throughput_median.isSome && m2.throughput_mean.isSome &&
        m2.throughput_min.isSome && m2.throughput_max.isSome then
      [row3 "  Median" (fmtQ2 (m1.throughput_median.getD 0)) (fmtQ2 (m2.throughput_median.getD 0)) mw vw,
       row3 "  Mean" (fmtQ2 (m1.throughput_mean.getD 0)) (fmtQ2 (m2.throughput_mean.getD 0)) mw vw,
       row3 "  Min" (fmtQ2 (m1.throughput_min.getD 0)) (fmtQ2 (m2.throughput_min.getD 0)) mw vw,
       row3 "  Max" (fmtQ2 (m1.throughput_max.getD 0)) (fmtQ2 (m2.throughput_max.getD 0)) mw vw]
    else [row3 "  (metrics not available)" "" "" mw vw]
  let dRows :=
    if m1.duration_median.isSome && m1.duration_mean.isSome &&
        m1.duration_min.isSome && m1.duration_max.isSome &&
        m2.duration_median.isSome && m2.duration_mean.isSome &&
        m2.duration_min.isSome && m2.duration_max.isSome then
      [row3 "  Median" (fmtQ2 (m1.duration_median.getD 0)) (fmtQ2 (m2.duration_median.getD 0)) mw vw,
       row3 "  Mean" (fmtQ2 (m1.duration_mean.getD 0)) (fmtQ2 (m2.duration_mean.getD 0)) mw vw,
       row3 "  Min" (fmtQ2 (m1.duration_min.getD 0)) (fmtQ2 (m2.duration_min.getD 0)) mw vw,
       row3 "  Max" (fmtQ2 (m1.duration_max.getD 0)) (fmtQ2 (m2.duration_max.getD 0)) mw vw]
    else [row3 "  (metrics not available)" "" "" mw vw]
  let rssRow :=
    match m1.peak_rss, m2.peak_rss with
    | some a, some b => row3 "Peak RSS (MiB)" (fmtQ2 a) (fmtQ2 b) mw vw
    | x1, x2 =>
      row3 "Peak RSS (MiB)" (match x1 with | some a => fmtQ2 a | none => "N/A")
        (match x2 with | some b => fmtQ2 b | none => "N/A") mw vw
  ["", "Comparing: " ++ label1 ++ " vs " ++ label2, "",
   "┌" ++ sliceMid sep ++ "┐",
   row3 "Metric" label1 label2 mw vw,
   "├" ++ sliceMid sep ++ "┤",
   row3 "Throughput (Gb/s)" "" "" mw vw] ++
    tRows ++
    [row3 "Duration (Secs)" "" "" mw vw] ++
    dRows ++
    [rssRow] ++
    ["└" ++ sliceMid sep ++ "┘", ""]

/-- Recogniser for diagnostic-stream events. -/
def isErrLine : PEvent → Bool
  | .errLine _ => true
  | _ => false

end Compare

namespace Compare

theorem digitsLEFuel_eq (fuel : Nat) :
    ∀ n, n ≤ fuel → digitsLE.digitsLEFuel fuel n = Nat.digits 10 n := by
  induction fuel with
  | zero =>
    intro n hn
    interval_cases n
    simp [digitsLE.digitsLEFuel]
  | succ f ih =>
    intro n hn
    cases n with
    | zero => simp [digitsLE.digitsLEFuel]
    | succ m =>
      rw [digitsLE.digitsLEFuel, Nat.digits_def' (by norm_num : (1 : Nat) < 10) (Nat.succ_pos m),
        ih]
      · have := Nat.div_lt_self (Nat.succ_pos m) (by norm_num : 1 < 10)
        omega
      · omega

theorem digitsLE_eq (n : Nat) : digitsLE n = Nat.digits 10 n :=
  digitsLEFuel_eq n n le_rfl

theorem digitsLE_ne_nil {n : Nat} (hn : n ≠ 0) : digitsLE n ≠ [] := by
  rw [digitsLE_eq]
  exact Nat.digits_ne_nil_iff_ne_zero.mpr hn

theorem digitsLE_lt {n : Nat} : ∀ d ∈ digitsLE n, d < 10 := by
  rw [digitsLE_eq]
  exact fun d hd => Nat.digits_lt_base (by norm_num) hd

theorem digitsLE_len_eq_log {n : Nat} (hn : n ≠ 0) :
    (digitsLE n).length = Nat.log 10 n + 1 := by
  rw [digitsLE_eq]
  exact Nat.digits_len 10 n (by norm_num) hn

theorem digitsLE_len_mono {i n : Nat} (hi : i ≠ 0) (hin : i ≤ n) :
    (digitsLE i).length ≤ (digitsLE n).length := by
  rw [digitsLE_len_eq_log hi, digitsLE_len_eq_log (by omega)]
  exact Nat.add_le_add_right (Nat.log_mono_right hin) 1

theorem foldl_val_acc (l : List Nat) :
    ∀ acc, l.foldl (fun a d => 10 * a + d) acc = acc * 10 ^ l.length + valMSF l := by
  induction l with
  | nil => intro acc; simp [valMSF]
  | cons d t ih =>
    intro acc
    have h1 := ih (10 * acc + d)
    have h2 := ih d
    simp only [List.foldl_cons, List.length_cons, valMSF, Nat.mul_zero, Nat.zero_add] at *
    rw [h1, h2]
    ring

theorem valMSF_cons (d : Nat) (t : List Nat) :
    valMSF (d :: t) = d * 10 ^ t.length + valMSF t := by
  have := foldl_val_acc t d
  simp only [valMSF, List.foldl_cons]
  simpa using this

theorem valMSF_lt {l : List Nat} (h : ∀ d ∈ l, d < 10) : valMSF l < 10 ^ l.length := by
  induction l with
  | nil => simp [valMSF]
  | cons d t ih =>
    have hd : d < 10 := h d (List.mem_cons_self d t)
    have ht := ih fun x hx => h x (List.mem_cons_of_mem d hx)
    rw [valMSF_cons]
    calc d * 10 ^ t.length + valMSF t < d * 10 ^ t.length + 10 ^ t.length := by omega
      _ = (d + 1) * 10 ^ t.length := by ring
      _ ≤ 10 * 10 ^ t.length := Nat.mul_le_mul_right _ (by omega)
      _ = 10 ^ (d :: t).length := by rw [List.length_cons]; ring

theorem valMSF_reverse (l : List Nat) : valMSF l.reverse = Nat.ofDigits 10 l := by
  induction l with
  | nil => simp [valMSF]
  | cons d t ih =>
    rw [List.reverse_cons, Nat.ofDigits_cons, ← ih]
    simp only [valMSF, List.foldl_append, List.foldl_cons, List.foldl_nil]
    rw [foldl_val_acc]
    simp [valMSF]
    ring

theorem valMSF_digits (n : Nat) : valMSF (digitsLE n).reverse = n := by
  rw [valMSF_reverse, digitsLE_eq, Nat.ofDigits_digits]

theorem valMSF_padL (w : Nat) (l : List Nat) : valMSF (padL w l) = valMSF l := by
  have hz : ∀ k, List.foldl (fun a d => 10 * a + d) 0 (List.replicate k 0) = 0 := by
    intro k
    induction k with
    | zero => rfl
    | succ m ih => simpa [List.replicate_succ] using ih
  simp only [padL, valMSF, List.foldl_append, hz]

theorem padL_length {w : Nat} {l : List Nat} (h : l.length ≤ w) :
    (padL w l).length = w := by
  simp only [padL, List.length_append, List.length_replicate]
  omega

theorem padL_mem_lt {w : Nat} {l : List Nat} (h : ∀ d ∈ l, d < 10) :
    ∀ d ∈ padL w l, d < 10 := by
  intro d hd
  rcases List.mem_append.mp hd with hd | hd
  · have := List.eq_of_mem_replicate hd
    omega
  · exact h d hd

theorem lex_cons_iff {α : Type} (r : α → α → Prop) (a b : α) (t1 t2 : List α) :
    List.Lex r (a :: t1) (b :: t2) ↔ r a b ∨ (a = b ∧ List.Lex r t1 t2) := by
  constructor
  · intro h
    cases h with
    | cons h => exact Or.inr ⟨rfl, h⟩
    | rel h => exact Or.inl h
  · rintro (h | ⟨rfl, h⟩)
    · exact List.Lex.rel h
    · exact List.Lex.cons h

theorem lex_append_left {α : Type} (r : α → α → Prop) (hirr : ∀ x : α, ¬ r x x)
    (p l1 l2 : List α) : List.Lex r (p ++ l1) (p ++ l2) ↔ List.Lex r l1 l2 := by
  induction p with
  | nil => simp
  | cons a t ih =>
    rw [List.cons_append, List.cons_append, lex_cons_iff]
    simp [hirr a, ih]

theorem lex_iff_val :
    ∀ l1 l2 : List Nat, l1.length = l2.length → (∀ d ∈ l1, d < 10) → (∀ d ∈ l2, d < 10) →
      (List.Lex (fun x y : Nat => x < y) l1 l2 ↔ valMSF l1 < valMSF l2) := by
  intro l1
  induction l1 with
  | nil =>
    intro l2 hlen _ _
    have : l2 = [] := List.length_eq_zero.mp hlen.symm
    subst this
    constructor
    · intro h; cases h
    · intro h; omega
  | cons a t1 ih =>
    intro l2 hlen h1 h2
    cases l2 with
    | nil => simp at hlen
    | cons b t2 =>
      have hlen' : t1.length = t2.length := by simpa using hlen
      have ha : a < 10 := h1 a (List.mem_cons_self a t1)
      have hb : b < 10 := h2 b (List.mem_cons_self b t2)
      have ht1 : ∀ d ∈ t1, d < 10 := fun d hd => h1 d (List.mem_cons_of_mem a hd)
      have ht2 : ∀ d ∈ t2, d < 10 := fun d hd => h2 d (List.mem_cons_of_mem b hd)
      have hv1 : valMSF t1 < 10 ^ t2.length := by rw [← hlen']; exact valMSF_lt ht1
      have hv2 : valMSF t2 < 10 ^ t2.length := valMSF_lt ht2
      rw [lex_cons_iff, valMSF_cons, valMSF_cons, hlen', ih t2 hlen' ht1 ht2]
      constructor
      · rintro (hab | ⟨rfl, hv⟩)
        · calc a * 10 ^ t2.length + valMSF t1
              < a * 10 ^ t2.length + 10 ^ t2.length := by omega
            _ = (a + 1) * 10 ^ t2.length := by ring
            _ ≤ b * 10 ^ t2.length := Nat.mul_le_mul_right _ hab
            _ ≤ b * 10 ^ t2.length + valMSF t2 := Nat.le_add_right _ _
        · omega
      · intro hv
        rcases Nat.lt_trichotomy a b with hab | rfl | hba
        · exact Or.inl hab
        · exact Or.inr ⟨rfl, by omega⟩
        · exfalso
          have : b * 10 ^ t2.length + valMSF t2 < a * 10 ^ t2.length + valMSF t1 := by
            calc b * 10 ^ t2.length + valMSF t2
                < b * 10 ^ t2.length + 10 ^ t2.length := by omega
              _ = (b + 1) * 10 ^ t2.length := by ring
              _ ≤ a * 10 ^ t2.length := Nat.mul_le_mul_right _ hba
              _ ≤ a * 10 ^ t2.length + valMSF t1 := Nat.le_add_right _ _
          omega

theorem digitChar_mono :
    ∀ d1, d1 < 10 → ∀ d2, d2 < 10 → (digitChar d1 < digitChar d2 ↔ d1 < d2) := by
  decide

theorem digitChar_inj :
    ∀ d1, d1 < 10 → ∀ d2, d2 < 10 → digitChar d1 = digitChar d2 → d1 = d2 := by
  decide

theorem lex_map_digitChar :
    ∀ l1 l2 : List Nat, (∀ d ∈ l1, d < 10) → (∀ d ∈ l2, d < 10) →
      (List.Lex (fun x y : Char => x < y) (l1.map digitChar) (l2.map digitChar) ↔
        List.Lex (fun x y : Nat => x < y) l1 l2) := by
  intro l1
  induction l1 with
  | nil =>
    intro l2 _ _
    cases l2 with
    | nil => simp
    | cons b t2 =>
      simp only [List.map_nil, List.map_cons]
      exact ⟨fun _ => List.Lex.nil, fun _ => List.Lex.nil⟩
  | cons a t1 ih =>
    intro l2 h1 h2
    cases l2 with
    | nil =>
      constructor
      · intro h; cases h
      · intro h; cases h
    | cons b t2 =>
      have ha : a < 10 := h1 a (List.mem_cons_self a t1)
      have hb : b < 10 := h2 b (List.mem_cons_self b t2)
      have ht1 : ∀ d ∈ t1, d < 10 := fun d hd => h1 d (List.mem_cons_of_mem a hd)
      have ht2 : ∀ d ∈ t2, d < 10 := fun d hd => h2 d (List.mem_cons_of_mem b hd)
      simp only [List.map_cons]
      rw [lex_cons_iff, lex_cons_iff]
      constructor
      · rintro (h | ⟨heq, h⟩)
        · exact Or.inl ((digitChar_mono a ha b hb).mp h)
        · exact Or.inr ⟨digitChar_inj a ha b hb heq, (ih t2 ht1 ht2).mp h⟩
      · rintro (h | ⟨rfl, h⟩)
        · exact Or.inl ((digitChar_mono a ha b hb).mpr h)
        · exact Or.inr ⟨rfl, (ih t2 ht1 ht2).mpr h⟩

theorem map_digitChar_inj :
    ∀ l1 l2 : List Nat, (∀ d ∈ l1, d < 10) → (∀ d ∈ l2, d < 10) →
      l1.map digitChar = l2.map digitChar → l1 = l2 := by
  intro l1
  induction l1 with
  | nil =>
    intro l2 _ _ h
    cases l2 with
    | nil => rfl
    | cons b t2 => simp at h
  | cons a t1 ih =>
    intro l2 h1 h2 h
    cases l2 with
    | nil => simp at h
    | cons b t2 =>
      simp only [List.map_cons, List.cons.injEq] at h
      have ha : a < 10 := h1 a (List.mem_cons_self a t1)
      have hb : b < 10 := h2 b (List.mem_cons_self b t2)
      have ht1 : ∀ d ∈ t1, d < 10 := fun d hd => h1 d (List.mem_cons_of_mem a hd)
      have ht2 : ∀ d ∈ t2, d < 10 := fun d hd => h2 d (List.mem_cons_of_mem b hd)
      rw [digitChar_inj a ha b hb h.1, ih t2 ht1 ht2 h.2]

theorem data_append (s t : String) : (s ++ t).data = s.data ++ t.data :=
  rfl

theorem toDecChars_eq_map {i : Nat} (hi : i ≠ 0) :
    toDecChars i = ((digitsLE i).reverse).map digitChar := by
  unfold toDecChars
  have hne : (digitsLE i).reverse ≠ [] := by
    simpa using digitsLE_ne_nil hi
  cases h : (digitsLE i).reverse with
  | nil => exact absurd h hne
  | cons d t => rfl

theorem toDecChars_len {i : Nat} (hi : i ≠ 0) :
    (toDecChars i).length = (digitsLE i).length := by
  rw [toDecChars_eq_map hi]
  simp

theorem int_fmt_data {w i : Nat} (hi : i ≠ 0) :
    (int_fmt w i).data = ((padL w (digitsLE i).reverse).map digitChar) := by
  show List.replicate (w - (toDecChars i).length) '0' ++ toDecChars i = _
  rw [toDecChars_eq_map hi]
  simp [padL, List.map_append, List.map_replicate, digitChar]

theorem int_fmt_length {w i : Nat} (hi : i ≠ 0) (hw : (digitsLE i).length ≤ w) :
    (int_fmt w i).length = w := by
  show (int_fmt w i).data.length = w
  rw [int_fmt_data hi, List.length_map, padL_length (by simpa using hw)]

theorem int_width_eq {n : Nat} (hn : 1 ≤ n) : int_width n = (digitsLE n).length := by
  unfold int_width
  rcases Nat.lt_or_ge 1 n with h | h
  · rw [if_pos h]
  · have : n = 1 := by omega
    subst this
    rfl

theorem int_fmt_lt_iff {n i j : Nat} (hn : 1 ≤ n) (hi : 1 ≤ i) (hin : i ≤ n)
    (hj : 1 ≤ j) (hjn : j ≤ n) :
    (List.Lex (fun x y : Char => x < y) (int_fmt (int_width n) i).data
      (int_fmt (int_width n) j).data ↔ i < j) := by
  rw [int_fmt_data (by omega), int_fmt_data (by omega),
    lex_map_digitChar _ _ (padL_mem_lt fun d hd => digitsLE_lt d (List.mem_reverse.mp hd))
      (padL_mem_lt fun d hd => digitsLE_lt d (List.mem_reverse.mp hd)),
    lex_iff_val _ _ ?hlen
      (padL_mem_lt fun d hd => digitsLE_lt d (List.mem_reverse.mp hd))
      (padL_mem_lt fun d hd => digitsLE_lt d (List.mem_reverse.mp hd)),
    valMSF_padL, valMSF_padL, valMSF_digits, valMSF_digits]
  case hlen =>
    have hwi : ((digitsLE i).reverse).length ≤ int_width n := by
      rw [int_width_eq hn, List.length_reverse]
      exact digitsLE_len_mono (by omega) hin
    have hwj : ((digitsLE j).reverse).length ≤ int_width n := by
      rw [int_width_eq hn, List.length_reverse]
      exact digitsLE_len_mono (by omega) hjn
    rw [padL_length hwi, padL_length hwj]

theorem task_key_lt_iff (a s : String) (n i j : Nat) (hn : 1 ≤ n) (hi : 1 ≤ i)
    (hin : i ≤ n) (hj : 1 ≤ j) (hjn : j ≤ n) :
    (task_key a s n i < task_key a s n j ↔ i < j) := by
  rw [String.lt_iff_toList_lt]
  have e1 : (task_key a s n i).toList =
      (a ++ "/" ++ dirname s n ++ "/").data ++ (int_fmt (int_width n) i).data := rfl
  have e2 : (task_key a s n j).toList =
      (a ++ "/" ++ dirname s n ++ "/").data ++ (int_fmt (int_width n) j).data := rfl
  rw [e1, e2]
  show List.Lex (fun x y : Char => x < y)
      ((a ++ "/" ++ dirname s n ++ "/").data ++ (int_fmt (int_width n) i).data)
      ((a ++ "/" ++ dirname s n ++ "/").data ++ (int_fmt (int_width n) j).data) ↔ i < j
  rw [lex_append_left _ (fun c : Char => lt_irrefl c)]
  exact int_fmt_lt_iff hn hi hin hj hjn

theorem task_key_inj (a s : String) (n i j : Nat) (hn : 1 ≤ n) (hi : 1 ≤ i)
    (hin : i ≤ n) (hj : 1 ≤ j) (hjn : j ≤ n)
    (h : task_key a s n i = task_key a s n j) : i = j := by
  rcases Nat.lt_trichotomy i j with hij | hij | hij
  · have h1 := (task_key_lt_iff a s n i j hn hi hin hj hjn).mpr hij
    rw [h] at h1
    have h2 := (task_key_lt_iff a s n j j hn hj hjn hj hjn).mp h1
    omega
  · exact hij
  · have h1 := (task_key_lt_iff a s n j i hn hj hjn hi hin).mpr hij
    rw [h] at h1
    have h2 := (task_key_lt_iff a s n j j hn hj hjn hj hjn).mp h1
    omega

theorem generateTasksFrom_length (a s : String) (f n : Nat) :
    (generateTasksFrom a s f n).length = n := by
  simp [generateTasksFrom]

theorem generateTasksFrom_get_key (a s : String) (f n : Nat) (i : Nat)
    (hi : i < (generateTasksFrom a s f n).length) :
    ((generateTasksFrom a s f n).get ⟨i, hi⟩).key = task_key a s n (i + 1) := by
  simp [generateTasksFrom]

/-- C1: for the payload argument list `["upload-10MiB-3x"]`, `parse_payload`
produces a workload with exactly three tasks whose keys are, in order,
`upload/10MiB-3x/1`, `upload/10MiB-3x/2`, `upload/10MiB-3x/3`, each an
`upload` task of `10485760` bytes. -/
theorem c1_payload_upload_10MiB_3x (readJson : String → Except String JsonTop) :
    parse_payload ["upload-10MiB-3x"] readJson =
      .ok (mkWorkload
        [⟨"upload", "upload/10MiB-3x/1", 10485760⟩,
         ⟨"upload", "upload/10MiB-3x/2", 10485760⟩,
         ⟨"upload", "upload/10MiB-3x/3", 10485760⟩] true) :=
  rfl

/-- C2: for every workload-name expansion with `numFiles ≥ 1`, the generated
task keys are pairwise distinct, the zero-padded index component has width
equal to the decimal digit count of `numFiles` (which is at least 1), and the
lexicographic order of the keys coincides with the numeric order of the file
indices. -/
theorem c2_expansion_key_invariants (a s : String) (fileSize numFiles : Nat)
    (hn : 1 ≤ numFiles) :
    ((generateTasksFrom a s fileSize numFiles).map Task.key).Nodup ∧
      (∀ i, i < numFiles →
        (int_fmt (int_width numFiles) (i + 1)).length = (digitsLE numFiles).length) ∧
      (∀ i j (hi : i < (generateTasksFrom a s fileSize numFiles).length)
          (hj : j < (generateTasksFrom a s fileSize numFiles).length),
        (((generateTasksFrom a s fileSize numFiles).get ⟨i, hi⟩).key <
            ((generateTasksFrom a s fileSize numFiles).get ⟨j, hj⟩).key ↔ i < j)) := by
  refine ⟨?_, ?_, ?_⟩
  · have hkeys : (generateTasksFrom a s fileSize numFiles).map Task.key =
        (List.range numFiles).map (fun i => task_key a s numFiles (i + 1)) := by
      simp [generateTasksFrom]
    rw [hkeys]
    have h1 : List.Pairwise
        (fun i j => task_key a s numFiles (i + 1) ≠ task_key a s numFiles (j + 1))
        (List.range numFiles) := by
      refine (List.pairwise_lt_range numFiles).imp_of_mem ?_
      intro x y hx hy hxy hkey
      rw [List.mem_range] at hx hy
      have := task_key_inj a s numFiles (x + 1) (y + 1) hn (by omega) (by omega)
        (by omega) (by omega) hkey
      omega
    exact h1.map _ (fun x y h => h)
  · intro i hi
    have hb : (digitsLE (i + 1)).length ≤ int_width numFiles := by
      rw [int_width_eq hn]
      exact digitsLE_len_mono (by omega) (by omega)
    rw [int_fmt_length (by omega) hb, int_width_eq hn]
  · intro i j hi hj
    rw [generateTasksFrom_get_key, generateTasksFrom_get_key]
    rw [generateTasksFrom_length] at hi hj
    rw [task_key_lt_iff a s numFiles (i + 1) (j + 1) hn (by omega) (by omega)
      (by omega) (by omega)]
    omega

/-- Witness for C2 at the concrete expansion of `upload-10MiB-3x`. -/
theorem c2_witness :
    1 ≤ 3 ∧
      (((generateTasksFrom "upload" "10MiB" 10485760 3).map Task.key).Nodup ∧
        (∀ i, i < 3 →
          (int_fmt (int_width 3) (i + 1)).length = (digitsLE 3).length) ∧
        (∀ i j (hi : i < (generateTasksFrom "upload" "10MiB" 10485760 3).length)
            (hj : j < (generateTasksFrom "upload" "10MiB" 10485760 3).length),
          (((generateTasksFrom "upload" "10MiB" 10485760 3).get ⟨i, hi⟩).key <
              ((generateTasksFrom "upload" "10MiB" 10485760 3).get ⟨j, hj⟩).key ↔ i < j))) :=
  ⟨by decide, c2_expansion_key_invariants "upload" "10MiB" 10485760 3 (by decide)⟩

/-- C7 counterexample: at `numFiles = 10` the code pads the index component to
width 2 (`int_fmt` renders index 1 as `01`), while the width claimed by the
spec, `⌈log10 10⌉` with a minimum of 1, equals 1. -/
theorem c7_counterexample :
    int_fmt (int_width 10) 1 = "01" ∧ (int_fmt (int_width 10) 1).length = 2 ∧
      max 1 (Nat.clog 10 10) = 1 ∧ (int_fmt (int_width 10) 1).length ≠ max 1 (Nat.clog 10 10) := by
  have hc : Nat.clog 10 10 = 1 := Nat.clog_eq_one (by norm_num) le_rfl
  refine ⟨by decide, by decide, by rw [hc]; decide, ?_⟩
  rw [hc]
  decide

/-- C7 (amended): for every `numFiles ≥ 1` the index component of each
generated key is zero-padded to exactly `⌊log10 numFiles⌋ + 1` digits — the
decimal digit count of `numFiles` — not `⌈log10 numFiles⌉`. -/
theorem c7_amended (numFiles i : Nat) (hn : 1 ≤ numFiles) (hi : 1 ≤ i)
    (hin : i ≤ numFiles) :
    (int_fmt (int_width numFiles) i).length = Nat.log 10 numFiles + 1 := by
  have hb : (digitsLE i).length ≤ int_width numFiles := by
    rw [int_width_eq hn]
    exact digitsLE_len_mono (by omega) hin
  rw [int_fmt_length (by omega) hb, int_width_eq hn, digitsLE_len_eq_log (by omega)]

/-- Witness for the amended C7 at `numFiles = 10`, index 1. -/
theorem c7_witness :
    (1 ≤ 10 ∧ 1 ≤ 1 ∧ 1 ≤ 10) ∧
      (int_fmt (int_width 10) 1).length = Nat.log 10 10 + 1 :=
  ⟨by decide, c7_amended 10 1 (by decide) (by decide) (by decide)⟩

/-- C10: `parse_payload` accepts an empty task list without error — a name
token with count `0x` expands to zero tasks, and a payload file whose
top-level JSON value is the empty array produces a workload with an empty
`tasks` list, even though the documented invariant wants `tasks` non-empty. -/
theorem c10_zero_tasks_accepted :
    (∀ readJson, parse_payload ["upload-1KiB-0x"] readJson = .ok (mkWorkload [] true)) ∧
      parse_payload ["empty.json"] (fun _ => .ok (.arr [])) = .ok (mkWorkload [] true) :=
  ⟨fun _ => rfl, rfl⟩

theorem digitChar_isDigit (d : Nat) : (digitChar d).isDigit = true := by
  unfold digitChar
  split <;> decide

theorem digitChar_toNat : ∀ d, d < 10 → (digitChar d).toNat - 48 = d := by
  decide

theorem toDecChars_ne_nil (n : Nat) : toDecChars n ≠ [] := by
  unfold toDecChars
  cases h : (digitsLE n).reverse with
  | nil => simp
  | cons d t => simp

theorem toDecChars_all_digit (n : Nat) : ∀ c ∈ toDecChars n, c.isDigit = true := by
  unfold toDecChars
  cases h : (digitsLE n).reverse with
  | nil =>
    intro c hc
    simp only [List.mem_singleton] at hc
    subst hc
    decide
  | cons d t =>
    intro c hc
    rcases List.mem_map.mp hc with ⟨x, _, rfl⟩
    exact digitChar_isDigit x

theorem parseDigitsVal_map_aux :
    ∀ (l : List Nat), (∀ d ∈ l, d < 10) → ∀ acc,
      (l.map digitChar).foldl (fun a c => 10 * a + (c.toNat - 48)) acc =
        l.foldl (fun a d => 10 * a + d) acc := by
  intro l
  induction l with
  | nil => intro _ acc; rfl
  | cons d t ih =>
    intro h acc
    simp only [List.map_cons, List.foldl_cons]
    rw [digitChar_toNat d (h d (List.mem_cons_self d t))]
    exact ih (fun x hx => h x (List.mem_cons_of_mem d hx)) (10 * acc + d)

theorem parseDigitsVal_toDecChars (n : Nat) : parseDigitsVal (toDecChars n) = n := by
  rcases Nat.eq_zero_or_pos n with rfl | hn
  · decide
  · rw [toDecChars_eq_map (by omega)]
    unfold parseDigitsVal
    rw [parseDigitsVal_map_aux _ (fun d hd => digitsLE_lt d (List.mem_reverse.mp hd))]
    exact valMSF_digits n

theorem span_digits_append (ds us : List Char) (hds : ∀ c ∈ ds, c.isDigit = true)
    (hus : ∀ c, us.head? = some c → c.isDigit = false) :
    (ds ++ us).span Char.isDigit = (ds, us) := by
  rw [List.span_eq_take_drop]
  induction ds with
  | nil =>
    cases us with
    | nil => rfl
    | cons u ut =>
      have hu := hus u rfl
      simp [List.takeWhile, List.dropWhile, hu]
  | cons d dt ih =>
    have hd : d.isDigit = true := hds d (List.mem_cons_self d dt)
    have ih2 := ih (fun c hc => hds c (List.mem_cons_of_mem d hc))
    simp only [Prod.mk.injEq] at ih2
    simp [List.takeWhile, List.dropWhile, hd, ih2.1, ih2.2]

theorem size_from_str_valid (ds : List Char) (u : List Char × Nat) (tail : List Char)
    (hu : u ∈ sizeUnits) (hne : ds ≠ []) (hdig : ∀ c ∈ ds, c.isDigit = true)
    (htail : tail = [] ∨ tail = ['\n']) :
    size_from_str ⟨ds ++ (u.1 ++ tail)⟩ = .ok (parseDigitsVal ds * u.2) := by
  have hspan : (ds ++ (u.1 ++ tail)).span Char.isDigit = (ds, u.1 ++ tail) := by
    refine span_digits_append ds (u.1 ++ tail) hdig ?_
    intro c hc
    fin_cases hu <;>
      simp only [List.cons_append, List.head?_cons, Option.some.injEq] at hc <;>
      subst hc <;> decide
  unfold size_from_str
  simp only [hspan]
  rw [if_neg (by simpa using hne)]
  fin_cases hu <;> rcases htail with rfl | rfl <;>
    simp [sizeUnits, List.find?, endAnchor, List.isPrefixOf, List.drop_left]

theorem size_from_str_ok_shape (s : String) (v : Nat) (h : size_from_str s = .ok v) :
    ∃ ds u tail, s.data = ds ++ u.1 ++ tail ∧ ds ≠ [] ∧ (∀ c ∈ ds, c.isDigit = true) ∧
      u ∈ sizeUnits ∧ v = parseDigitsVal ds * u.2 ∧ (tail = [] ∨ tail = ['\n']) := by
  unfold size_from_str at h
  by_cases hnil : (s.data.span Char.isDigit).1 = []
  · rw [if_pos hnil] at h
    exact absurd h (by simp)
  · rw [if_neg hnil] at h
    cases hfind : (sizeUnits.find? fun u =>
        u.1.isPrefixOf (s.data.span Char.isDigit).2 &&
          endAnchor ((s.data.span Char.isDigit).2.drop u.1.length)) with
    | none => rw [hfind] at h; exact absurd h (by simp)
    | some u =>
      rw [hfind] at h
      have hval : parseDigitsVal (s.data.span Char.isDigit).1 * u.2 = v := by
        simpa using h
      have hpred := List.find?_some hfind
      have hmem := List.mem_of_find?_eq_some hfind
      rw [Bool.and_eq_true] at hpred
      have hpre : u.1 <+: (s.data.span Char.isDigit).2 :=
        List.isPrefixOf_iff_prefix.mp hpred.1
      obtain ⟨rest, hrest⟩ := hpre
      have hdrop : (s.data.span Char.isDigit).2.drop u.1.length = rest := by
        rw [← hrest, List.drop_left]
      have hanchor : rest = [] ∨ rest = ['\n'] := by
        have := hpred.2
        rw [hdrop] at this
        simpa [endAnchor] using this
      refine ⟨(s.data.span Char.isDigit).1, u, rest, ?_, hnil, ?_, hmem, hval.symm, hanchor⟩
      · rw [List.append_assoc, hrest, List.span_eq_take_drop]
        exact (List.takeWhile_append_dropWhile Char.isDigit s.data).symm
      · intro c hc
        rw [List.span_eq_take_drop] at hc
        exact List.mem_takeWhile_imp hc

theorem size_from_str_error_names (s e : String) (h : size_from_str s = .error e) :
    e = "Illegal size \"" ++ s ++ "\". Expected something like \"1KiB\"" := by
  unfold size_from_str at h
  by_cases hnil : (s.data.span Char.isDigit).1 = []
  · rw [if_pos hnil] at h
    simpa using h.symm
  · rw [if_neg hnil] at h
    cases hfind : (sizeUnits.find? fun u =>
        u.1.isPrefixOf (s.data.span Char.isDigit).2 &&
          endAnchor ((s.data.span Char.isDigit).2.drop u.1.length)) with
    | none =>
      rw [hfind] at h
      simpa using h.symm
    | some u =>
      rw [hfind] at h
      exact absurd h (by simp)

theorem size_from_str_exact (ds : List Char) (u : List Char × Nat) (hu : u ∈ sizeUnits)
    (hne : ds ≠ []) (hdig : ∀ c ∈ ds, c.isDigit = true) :
    size_from_str ⟨ds ++ u.1⟩ = .ok (parseDigitsVal ds * u.2) := by
  have h := size_from_str_valid ds u [] hu hne hdig (Or.inl rfl)
  simpa using h

theorem size_from_str_newline (ds : List Char) (u : List Char × Nat) (hu : u ∈ sizeUnits)
    (hne : ds ≠ []) (hdig : ∀ c ∈ ds, c.isDigit = true) :
    size_from_str ⟨ds ++ u.1 ++ ['\n']⟩ = .ok (parseDigitsVal ds * u.2) := by
  have h := size_from_str_valid ds u ['\n'] hu hne hdig (Or.inr rfl)
  simpa [List.append_assoc] using h

/-- C6 counterexample: `size_from_str` accepts `"5KiB\n"` — a token that does
not match the grammar `^\d+(KiB|MiB|GiB|bytes|byte)$` exactly — and returns
5120 instead of raising, because Python's `$` also matches just before a
single trailing newline. -/
theorem c6_counterexample :
    size_from_str "5KiB\n" = .ok 5120 ∧ specSizeTokenGrammar "5KiB\n" = false := by
  exact ⟨by decide, by decide⟩

/-- C6 (amended): for every decimal integer `n` and unit in
`{KiB, MiB, GiB, byte, bytes}`, `size_from_str` returns `n` times the unit
multiplier; the regex end anchor additionally tolerates exactly one trailing
newline; every accepted string decomposes as digits, a unit, and an optional
final newline with the multiplied value; and every rejected string raises an
error naming the offending string. -/
theorem c6_amended :
    (∀ n : Nat,
        size_from_str (toDecString n ++ "KiB") = .ok (n * 1024) ∧
          size_from_str (toDecString n ++ "MiB") = .ok (n * (1024 * 1024)) ∧
          size_from_str (toDecString n ++ "GiB") = .ok (n * (1024 * 1024 * 1024)) ∧
          size_from_str (toDecString n ++ "bytes") = .ok (n * 1) ∧
          size_from_str (toDecString n ++ "byte") = .ok (n * 1) ∧
          size_from_str (toDecString n ++ "KiB" ++ "\n") = .ok (n * 1024)) ∧
      (∀ s v, size_from_str s = .ok v →
        ∃ ds u tail, s.data = ds ++ u.1 ++ tail ∧ ds ≠ [] ∧
          (∀ c ∈ ds, c.isDigit = true) ∧ u ∈ sizeUnits ∧
          v = parseDigitsVal ds * u.2 ∧ (tail = [] ∨ tail = ['\n'])) ∧
      (∀ s e, size_from_str s = .error e →
        e = "Illegal size \"" ++ s ++ "\". Expected something like \"1KiB\"") := by
  refine ⟨?_, size_from_str_ok_shape, size_from_str_error_names⟩
  intro n
  have hK := size_from_str_exact (toDecChars n) ("KiB".data, 1024) (by decide)
    (toDecChars_ne_nil n) (toDecChars_all_digit n)
  have hM := size_from_str_exact (toDecChars n) ("MiB".data, 1024 * 1024) (by decide)
    (toDecChars_ne_nil n) (toDecChars_all_digit n)
  have hG := size_from_str_exact (toDecChars n) ("GiB".data, 1024 * 1024 * 1024) (by decide)
    (toDecChars_ne_nil n) (toDecChars_all_digit n)
  have hBs := size_from_str_exact (toDecChars n) ("bytes".data, 1) (by decide)
    (toDecChars_ne_nil n) (toDecChars_all_digit n)
  have hB := size_from_str_exact (toDecChars n) ("byte".data, 1) (by decide)
    (toDecChars_ne_nil n) (toDecChars_all_digit n)
  have hKn := size_from_str_newline (toDecChars n) ("KiB".data, 1024) (by decide)
    (toDecChars_ne_nil n) (toDecChars_all_digit n)
  rw [parseDigitsVal_toDecChars] at hK hM hG hBs hB hKn
  exact ⟨hK, hM, hG, hBs, hB, hKn⟩

/-- Witness for the amended C6: the accepted token `5KiB` decomposes per the
characterisation. -/
theorem c6_witness :
    ∃ ds u tail, ("5KiB" : String).data = ds ++ u.1 ++ tail ∧ ds ≠ [] ∧
      (∀ c ∈ ds, c.isDigit = true) ∧ u ∈ sizeUnits ∧
      5120 = parseDigitsVal ds * u.2 ∧ (tail = [] ∨ tail = ['\n']) :=
  c6_amended.2.1 "5KiB" 5120 (by decide)

theorem namesFold_fod :
    ∀ (names : List String) (acc : List Task) (fod : Bool) (ts : List Task) (f : Bool),
      namesFold names acc fod = .ok (ts, f) → f = (fod && names.all nameFod) := by
  intro names
  induction names with
  | nil =>
    intro acc fod ts f h
    simp only [namesFold, Except.ok.injEq, Prod.mk.injEq] at h
    simp [← h.2]
  | cons nm rest ih =>
    intro acc fod ts f h
    unfold namesFold at h
    cases hgen : generate_tasks_from_workload_name nm with
    | error e =>
      rw [hgen] at h
      exact absurd h (by simp)
    | ok p =>
      rw [hgen] at h
      have hf := ih (acc ++ p.1) (fod && p.2) ts f h
      rw [List.all_cons, hf]
      have hb : nameFod nm = p.2 := by
        unfold nameFod
        rw [hgen]
      rw [hb, Bool.and_assoc]

theorem arrayFold_fod :
    ∀ (items : List JItem) (acc : List Task) (fod : Bool) (ts : List Task) (f : Bool),
      arrayFold items acc fod = .ok (ts, f) → f = items.foldl codeFodStep fod := by
  intro items
  induction items with
  | nil =>
    intro acc fod ts f h
    simp only [arrayFold, Except.ok.injEq, Prod.mk.injEq] at h
    simp [← h.2]
  | cons it rest ih =>
    intro acc fod ts f h
    unfold arrayFold at h
    cases htk : it.tasks with
    | some ts0 =>
      rw [htk] at h
      have hf := ih _ _ ts f h
      rw [List.foldl_cons, hf]
      unfold codeFodStep
      rw [htk]
    | none =>
      rw [htk] at h
      cases hac : it.action with
      | none => rw [hac] at h; exact absurd h (by simp)
      | some a =>
        rw [hac] at h
        cases hfs : it.fileSize with
        | none => rw [hfs] at h; exact absurd h (by simp)
        | some fs =>
          rw [hfs] at h
          cases hnf : it.numFiles with
          | none => rw [hnf] at h; exact absurd h (by simp)
          | some nf =>
            rw [hnf] at h
            dsimp only at h
            cases hgen : generate_tasks_from_workload_name
                (a ++ "-" ++ fs ++ "-" ++ toDecString nf ++ "x") with
            | error e => rw [hgen] at h; exact absurd h (by simp)
            | ok p =>
              rw [hgen] at h
              have hf := ih _ _ ts f h
              rw [List.foldl_cons, hf]
              unfold codeFodStep
              rw [htk]

/-- C3 counterexample: a JSON array of two compact spec elements, the first
with `filesOnDisk = false` and the second without the field; the code's
assignment on the compact branch makes the combined flag `true`, while the
claimed AND of the contributions (`false` and default `true`) is `false`. -/
theorem c3_counterexample :
    parse_payload ["w.json"]
        (fun _ => .ok (.arr
          [⟨none, some false, some "upload", some "1KiB", some 1⟩,
           ⟨none, none, some "upload", some "1KiB", some 1⟩])) =
      .ok (mkWorkload
        [⟨"upload", "upload/1KiB-1x/1", 1024⟩,
         ⟨"upload", "upload/1KiB-1x/1", 1024⟩] true) ∧
      specCombinedFod
        [⟨none, some false, some "upload", some "1KiB", some 1⟩,
         ⟨none, none, some "upload", some "1KiB", some 1⟩] = false := by
  exact ⟨by decide, by decide⟩

/-- C3 (amended): for a payload of name tokens, `filesOnDisk` is the AND of
all token contributions (so the claimed example yields `false` and 10 tasks);
for a JSON array, a fragment element carrying `tasks` ANDs its `filesOnDisk`
into the running value when present, but a compact spec element *replaces*
the running value with its own `filesOnDisk` field (defaulting to `true` when
absent), so the result is a left fold of `codeFodStep`, not an AND. -/
theorem c3_amended :
    (∀ names ts f, namesFold names [] true = .ok (ts, f) → f = names.all nameFod) ∧
      (∀ readJson, ∃ w,
        parse_payload ["upload-1MiB-5x", "download-1MiB-5x-ram"] readJson = .ok w ∧
          w.filesOnDisk = false ∧ w.tasks.length = 10) ∧
      (∀ items ts f, arrayFold items [] true = .ok (ts, f) →
        f = items.foldl codeFodStep true) := by
  refine ⟨?_, ?_, ?_⟩
  · intro names ts f h
    have := namesFold_fod names [] true ts f h
    simpa using this
  · intro readJson
    exact ⟨_, rfl, rfl, rfl⟩
  · intro items ts f h
    exact arrayFold_fod items [] true ts f h

/-- Witness for the amended C3: the two-token example's combined flag equals
the AND of the token contributions, which is `false`. -/
theorem c3_witness :
    false = (["upload-1MiB-5x", "download-1MiB-5x-ram"].all nameFod) :=
  c3_amended.1 ["upload-1MiB-5x", "download-1MiB-5x-ram"] _ false rfl

theorem lineStep_id (m : Metrics) (l : List Char) (h : lineMatchesNone l = true) :
    lineStep m l = .ok m := by
  unfold lineMatchesNone at h
  simp only [Bool.and_eq_true, Option.isNone_iff_eq_none] at h
  unfold lineStep
  rw [h.1.1.1, h.1.1.2, h.1.2, h.2]
  rfl

theorem metricsFold_insert (l : List Char) (h : lineMatchesNone l = true) :
    ∀ (pre post : List (List Char)) (m : Metrics),
      metricsFold (pre ++ l :: post) m = metricsFold (pre ++ post) m := by
  intro pre
  induction pre with
  | nil =>
    intro post m
    simp only [List.nil_append]
    conv_lhs => unfold metricsFold
    rw [lineStep_id m l h]
  | cons p pre ih =>
    intro post m
    simp only [List.cons_append]
    unfold metricsFold
    cases hs : lineStep m p with
    | error e => rfl
    | ok m2 => exact ih post m2

theorem metricsFold_none :
    ∀ (ls : List (List Char)), (∀ l ∈ ls, lineMatchesNone l = true) →
      ∀ m, metricsFold ls m = .ok m := by
  intro ls
  induction ls with
  | nil => intro _ m; rfl
  | cons l rest ih =>
    intro h m
    unfold metricsFold
    rw [lineStep_id m l (h l (List.mem_cons_self l rest))]
    exact ih (fun x hx => h x (List.mem_cons_of_mem l hx)) m

/-- C8 counterexample: `parse_metrics` is not total — on the line
`Peak RSS:1.2.3 MiB` the RSS pattern matches, the captured numeric token
`1.2.3` is not a valid float literal, and the `float()` conversion raises a
`ValueError` instead of the line being ignored. -/
theorem c8_counterexample :
    parse_metrics "Peak RSS:1.2.3 MiB" =
      .error "could not convert string to float: 1.2.3" := by
  decide

/-- C8 (amended): a line matching none of the four patterns never affects the
result (it is ignored wherever it occurs), and when no line of the output
matches any pattern the extractor succeeds with every MetricSet field unset;
however `parse_metrics` can fail when a matched numeric capture is not a
valid float literal. -/
theorem c8_amended :
    (∀ (l : List Char), lineMatchesNone l = true →
      ∀ (pre post : List (List Char)) (m : Metrics),
        metricsFold (pre ++ l :: post) m = metricsFold (pre ++ post) m) ∧
      (∀ output : String, (∀ l ∈ pySplit '\n' output.data, lineMatchesNone l = true) →
        parse_metrics output = .ok emptyMetrics) :=
  ⟨fun l h pre post m => metricsFold_insert l h pre post m,
   fun _ h => metricsFold_none _ h emptyMetrics⟩

/-- Witness for the amended C8: output with no matching line parses to the
all-unset metrics. -/
theorem c8_witness : parse_metrics "benchmark starting\nall done" = .ok emptyMetrics :=
  c8_amended.2 "benchmark starting\nall done" (by decide)

/-- C9 counterexample: on a MetricSet pair where both throughput medians are
present but one mean is unset, the renderer neither emits the four rows nor
the `(metrics not available)` row — it raises the `TypeError` of formatting
`None` with `.2f`, contradicting the claim quantified over all pairs. -/
theorem c9_counterexample :
    format_comparison_table "a" "b"
        ⟨[], some 1, none, none, none, none, none, none, none, none⟩
        "c" "d"
        ⟨[], some 1, some 1, some 1, some 1, none, none, none, none, none⟩ =
      .error "unsupported format string passed to NoneType.__format__" := by
  decide

set_option maxHeartbeats 2000000 in
/-- C9 (amended): for MetricSet pairs whose aggregate quadruples are
all-or-nothing per side (as `parse_metrics` guarantees), the renderer
succeeds and produces exactly the claimed table: per section, the four
two-decimal rows when the quadruple is present on both sides and a single
`(metrics not available)` row otherwise, with the Peak RSS row substituting
`N/A` only for a side lacking the value. -/
theorem c9_amended (cl1 br1 cl2 br2 : String) (m1 m2 : Metrics)
    (h1 : quadWf m1) (h2 : quadWf m2) :
    format_comparison_table cl1 br1 m1 cl2 br2 m2 =
      .ok (specTable cl1 br1 m1 cl2 br2 m2) := by
  obtain ⟨r1, tm1, tmn1, tmi1, tma1, dm1, dmn1, dmi1, dma1, rs1⟩ := m1
  obtain ⟨r2, tm2, tmn2, tmi2, tma2, dm2, dmn2, dmi2, dma2, rs2⟩ := m2
  obtain ⟨h1t, h1d⟩ := h1
  obtain ⟨h2t, h2d⟩ := h2
  rcases h1t with ⟨rfl, rfl, rfl, rfl⟩ | ⟨a1, a2, a3, a4, rfl, rfl, rfl, rfl⟩ <;>
    rcases h2t with ⟨rfl, rfl, rfl, rfl⟩ | ⟨b1, b2, b3, b4, rfl, rfl, rfl, rfl⟩ <;>
    rcases h1d with ⟨rfl, rfl, rfl, rfl⟩ | ⟨p1, p2, p3, p4, rfl, rfl, rfl, rfl⟩ <;>
    rcases h2d with ⟨rfl, rfl, rfl, rfl⟩ | ⟨q1, q2, q3, q4, rfl, rfl, rfl, rfl⟩ <;>
    cases rs1 <;> cases rs2 <;> rfl

/-- Witness for the amended C9: one side with a full throughput quadruple,
the other with nothing. -/
theorem c9_witness :
    format_comparison_table "crt-c" "main"
        ⟨[], some 1, some 1, some 1, some 1, none, none, none, none, some 2⟩
        "crt-java" "dev" emptyMetrics =
      .ok (specTable "crt-c" "main"
        ⟨[], some 1, some 1, some 1, some 1, none, none, none, none, some 2⟩
        "crt-java" "dev" emptyMetrics) :=
  c9_amended "crt-c" "main" "crt-java" "dev" _ _
    ⟨Or.inr ⟨1, 1, 1, 1, rfl, rfl, rfl, rfl⟩, Or.inl ⟨rfl, rfl, rfl, rfl⟩⟩
    ⟨Or.inl ⟨rfl, rfl, rfl, rfl⟩, Or.inl ⟨rfl, rfl, rfl, rfl⟩⟩

theorem mem_andThen {α : Type} (e : PEvent) (p : List PEvent × Except String α)
    (k : α → List PEvent) :
    e ∈ andThen p k ↔ e ∈ p.1 ∨ (∃ a, p.2 = .ok a ∧ e ∈ k a) ∨
      (∃ s, p.2 = .error s ∧ (e = .errLine ("Error: " ++ s) ∨ e = .exitCode 1)) := by
  obtain ⟨evs, r⟩ := p
  cases r with
  | ok a => simp [andThen]
  | error s => simp [andThen]

theorem mem_checkout_fst (e : PEvent) (i : Nat) (r b : String) (fe ce : Nat)
    (h : e ∈ (checkout_branch i r b fe ce).1) :
    e = .spawnFetch i ∨ e = .spawnCheckout i := by
  unfold checkout_branch at h
  split at h
  · simp at h
    exact Or.inl h
  · split at h <;> simpa using h

theorem mem_rebuild_fst (e : PEvent) (i : Nat) (c : String) (x y : Nat)
    (h : e ∈ (rebuild_client i c x y).1) :
    e = .spawnClear i ∨ e = .spawnBuild i := by
  unfold rebuild_client at h
  split at h
  · simp at h
  · split at h <;> simpa using h

theorem mem_bench_fst (e : PEvent) (i : Nat) (c : String) (x : Nat) (o : String)
    (h : e ∈ (run_benchmark i c x o).1) :
    e = .spawnBench i ∨ ∃ s, e = .errLine s := by
  unfold run_benchmark at h
  split at h
  · split at h
    · simp only [List.mem_cons, List.not_mem_nil, or_false] at h
      rcases h with rfl | rfl | rfl | rfl
      · exact Or.inl rfl
      · exact Or.inr ⟨_, rfl⟩
      · exact Or.inr ⟨_, rfl⟩
      · exact Or.inr ⟨_, rfl⟩
    · simp at h
      exact Or.inl h
  · simp at h

theorem get_build_type_error (c s : String) (h : get_build_type c = .error s) :
    s = "Unknown client: " ++ c := by
  unfold get_build_type at h
  split_ifs at h <;> simp_all

theorem recognized_ok (c : String) :
    recognizedClient c = true ↔ ∃ bt, get_build_type c = .ok bt := by
  unfold recognizedClient
  cases hg : get_build_type c with
  | error s => simp
  | ok bt => simp

theorem rebuild_unknown (i : Nat) (c : String) (x y : Nat)
    (h : recognizedClient c = false) :
    rebuild_client i c x y = ([], .error ("Unknown client: " ++ c)) := by
  unfold rebuild_client
  cases hg : get_build_type c with
  | error s => rw [get_build_type_error c s hg]
  | ok bt =>
    exfalso
    have : recognizedClient c = true := (recognized_ok c).mpr ⟨bt, hg⟩
    rw [h] at this
    exact absurd this (by simp)

theorem c4_trace_client1 (a : Args) (pr : Except String Workload) (env : Env)
    (h : recognizedClient a.client1 = false) :
    ∀ e ∈ comparePipeline a pr env,
      e = .spawnPrep ∨ e = .spawnFetch 1 ∨ e = .spawnCheckout 1 ∨
        (∃ s, e = .errLine s) ∨ e = .exitCode 1 := by
  intro e he
  unfold comparePipeline at he
  cases pr with
  | error s =>
    simp only [List.mem_cons, List.not_mem_nil, or_false] at he
    rcases he with rfl | rfl
    · exact Or.inr (Or.inr (Or.inr (Or.inl ⟨_, rfl⟩)))
    · exact Or.inr (Or.inr (Or.inr (Or.inr rfl)))
  | ok w =>
    rw [mem_andThen] at he
    rcases he with he | ⟨u1, hu1, he⟩ | ⟨s1, hs1, he⟩
    · left
      simpa [prep_files] using he
    · rw [mem_andThen] at he
      rcases he with he | ⟨u2, hu2, he⟩ | ⟨s2, hs2, he⟩
      · rcases mem_checkout_fst e 1 a.client1Repo a.client1Branch env.fetchExit1
            env.checkoutExit1 he with rfl | rfl
        · exact Or.inr (Or.inl rfl)
        · exact Or.inr (Or.inr (Or.inl rfl))
      · rw [rebuild_unknown 1 a.client1 env.clearExit1 env.buildExit1 h, mem_andThen] at he
        rcases he with he | ⟨u3, hu3, he⟩ | ⟨s3, hs3, he⟩
        · simp at he
        · simp at hu3
        · rcases he with rfl | rfl
          · exact Or.inr (Or.inr (Or.inr (Or.inl ⟨_, rfl⟩)))
          · exact Or.inr (Or.inr (Or.inr (Or.inr rfl)))
      · rcases he with rfl | rfl
        · exact Or.inr (Or.inr (Or.inr (Or.inl ⟨_, rfl⟩)))
        · exact Or.inr (Or.inr (Or.inr (Or.inr rfl)))
    · rcases he with rfl | rfl
      · exact Or.inr (Or.inr (Or.inr (Or.inl ⟨_, rfl⟩)))
      · exact Or.inr (Or.inr (Or.inr (Or.inr rfl)))

theorem c4_trace_client2 (a : Args) (pr : Except String Workload) (env : Env)
    (h : recognizedClient a.client2 = false) :
    ∀ e ∈ comparePipeline a pr env,
      e = .spawnPrep ∨ e = .spawnFetch 1 ∨ e = .spawnCheckout 1 ∨
        e = .spawnClear 1 ∨ e = .spawnBuild 1 ∨ e = .spawnBench 1 ∨
        e = .spawnFetch 2 ∨ e = .spawnCheckout 2 ∨
        (∃ s, e = .errLine s) ∨ e = .exitCode 1 := by
  intro e he
  have herr : (∃ s, e = PEvent.errLine s) →
      e = .spawnPrep ∨ e = .spawnFetch 1 ∨ e = .spawnCheckout 1 ∨
        e = .spawnClear 1 ∨ e = .spawnBuild 1 ∨ e = .spawnBench 1 ∨
        e = .spawnFetch 2 ∨ e = .spawnCheckout 2 ∨
        (∃ s, e = .errLine s) ∨ e = .exitCode 1 := by
    intro hs
    exact Or.inr (Or.inr (Or.inr (Or.inr (Or.inr (Or.inr (Or.inr (Or.inr (Or.inl hs))))))))
  have hexit : e = PEvent.exitCode 1 →
      e = .spawnPrep ∨ e = .spawnFetch 1 ∨ e = .spawnCheckout 1 ∨
        e = .spawnClear 1 ∨ e = .spawnBuild 1 ∨ e = .spawnBench 1 ∨
        e = .spawnFetch 2 ∨ e = .spawnCheckout 2 ∨
        (∃ s, e = .errLine s) ∨ e = .exitCode 1 := by
    intro hs
    exact Or.inr (Or.inr (Or.inr (Or.inr (Or.inr (Or.inr (Or.inr (Or.inr (Or.inr hs))))))))
  unfold comparePipeline at he
  cases pr with
  | error s =>
    simp only [List.mem_cons, List.not_mem_nil, or_false] at he
    rcases he with rfl | rfl
    · exact herr ⟨_, rfl⟩
    · exact hexit rfl
  | ok w =>
    rw [mem_andThen] at he
    rcases he with he | ⟨u1, hu1, he⟩ | ⟨s1, hs1, he⟩
    · left
      simpa [prep_files] using he
    · rw [mem_andThen] at he
      rcases he with he | ⟨u2, hu2, he⟩ | ⟨s2, hs2, he⟩
      · rcases mem_checkout_fst e 1 a.client1Repo a.client1Branch env.fetchExit1
            env.checkoutExit1 he with rfl | rfl
        · exact Or.inr (Or.inl rfl)
        · exact Or.inr (Or.inr (Or.inl rfl))
      · rw [mem_andThen] at he
        rcases he with he | ⟨u3, hu3, he⟩ | ⟨s3, hs3, he⟩
        · rcases mem_rebuild_fst e 1 a.client1 env.clearExit1 env.buildExit1 he with rfl | rfl
          · exact Or.inr (Or.inr (Or.inr (Or.inl rfl)))
          · exact Or.inr (Or.inr (Or.inr (Or.inr (Or.inl rfl))))
        · rw [mem_andThen] at he
          rcases he with he | ⟨u4, hu4, he⟩ | ⟨s4, hs4, he⟩
          · rcases mem_bench_fst e 1 a.client1 env.benchExit1 env.benchOut1 he with rfl | hs
            · exact Or.inr (Or.inr (Or.inr (Or.inr (Or.inr (Or.inl rfl)))))
            · exact herr hs
          · rw [mem_andThen] at he
            rcases he with he | ⟨u5, hu5, he⟩ | ⟨s5, hs5, he⟩
            · simp at he
            · rw [mem_andThen] at he
              rcases he with he | ⟨u6, hu6, he⟩ | ⟨s6, hs6, he⟩
              · rcases mem_checkout_fst e 2 a.client2Repo a.client2Branch env.fetchExit2
                    env.checkoutExit2 he with rfl | rfl
                · exact Or.inr (Or.inr (Or.inr (Or.inr (Or.inr (Or.inr (Or.inl rfl))))))
                · exact Or.inr (Or.inr (Or.inr (Or.inr (Or.inr (Or.inr (Or.inr (Or.inl rfl)))))))
              · rw [rebuild_unknown 2 a.client2 env.clearExit2 env.buildExit2 h,
                  mem_andThen] at he
                rcases he with he | ⟨u7, hu7, he⟩ | ⟨s7, hs7, he⟩
                · simp at he
                · simp at hu7
                · rcases he with rfl | rfl
                  · exact herr ⟨_, rfl⟩
                  · exact hexit rfl
              · rcases he with rfl | rfl
                · exact herr ⟨_, rfl⟩
                · exact hexit rfl
            · rcases he with rfl | rfl
              · exact herr ⟨_, rfl⟩
              · exact hexit rfl
          · rcases he with rfl | rfl
            · exact herr ⟨_, rfl⟩
            · exact hexit rfl
        · rcases he with rfl | rfl
          · exact herr ⟨_, rfl⟩
          · exact hexit rfl
      · rcases he with rfl | rfl
        · exact herr ⟨_, rfl⟩
        · exact hexit rfl
    · rcases he with rfl | rfl
      · exact herr ⟨_, rfl⟩
      · exact hexit rfl

/-- C4 counterexample: with an unrecognised client name the pipeline still
spawns the file-preparation and git processes before the unknown-client error
is raised, so a state with a spawned process *is* reachable under an
unrecognised client name. -/
theorem c4_counterexample :
    recognizedClient "mystery" = false ∧
      comparePipeline ⟨"mystery", "main", "repo1", "crt-c", "main", "repo2"⟩
          (.ok (mkWorkload [] true)) ⟨0, 0, 0, 0, 0, 0, "", 0, 0, 0, 0, 0, ""⟩ =
        [.spawnPrep, .spawnFetch 1, .spawnCheckout 1,
         .errLine "Error: Unknown client: mystery", .exitCode 1] ∧
      PEvent.spawnPrep ∈
        comparePipeline ⟨"mystery", "main", "repo1", "crt-c", "main", "repo2"⟩
          (.ok (mkWorkload [] true)) ⟨0, 0, 0, 0, 0, 0, "", 0, 0, 0, 0, 0, ""⟩ := by
  exact ⟨by decide, by decide, by decide⟩

/-- C4 (amended): an invocation whose client-`i` name is unrecognised raises
the unknown-client error at the start of that client's rebuild step: no
clear, build, or benchmark process for that client is ever spawned and no
comparison table is printed — but processes of earlier pipeline stages (file
preparation, git operations, and the first client's build and run when the
unknown client is the second) may already have been spawned. -/
theorem c4_amended (a : Args) (pr : Except String Workload) (env : Env) (i : Nat)
    (hi : i = 1 ∨ i = 2)
    (h : recognizedClient (if i = 1 then a.client1 else a.client2) = false) :
    PEvent.spawnClear i ∉ comparePipeline a pr env ∧
      PEvent.spawnBuild i ∉ comparePipeline a pr env ∧
      PEvent.spawnBench i ∉ comparePipeline a pr env ∧
      ∀ t, PEvent.printTable t ∉ comparePipeline a pr env := by
  rcases hi with rfl | rfl
  · rw [if_pos rfl] at h
    have hsub := c4_trace_client1 a pr env h
    refine ⟨fun hm => ?_, fun hm => ?_, fun hm => ?_, fun t hm => ?_⟩ <;>
      rcases hsub _ hm with h' | h' | h' | ⟨s, h'⟩ | h' <;> simp at h'
  · rw [if_neg (by omega)] at h
    have hsub := c4_trace_client2 a pr env h
    refine ⟨fun hm => ?_, fun hm => ?_, fun hm => ?_, fun t hm => ?_⟩ <;>
      rcases hsub _ hm with h' | h' | h' | h' | h' | h' | h' | h' | ⟨s, h'⟩ | h' <;>
      simp at h'

/-- Witness for the amended C4: with client 2 unrecognised, no clear, build,
or benchmark process for client 2 appears in the trace and no table is
printed, although client 1 runs fully first. -/
theorem c4_witness :
    recognizedClient "mystery" = false ∧
      (PEvent.spawnClear 2 ∉
          comparePipeline ⟨"crt-c", "main", "repo1", "mystery", "main", "repo2"⟩
            (.ok (mkWorkload [] true)) ⟨0, 0, 0, 0, 0, 0, "", 0, 0, 0, 0, 0, ""⟩ ∧
        PEvent.spawnBuild 2 ∉
          comparePipeline ⟨"crt-c", "main", "repo1", "mystery", "main", "repo2"⟩
            (.ok (mkWorkload [] true)) ⟨0, 0, 0, 0, 0, 0, "", 0, 0, 0, 0, 0, ""⟩ ∧
        PEvent.spawnBench 2 ∉
          comparePipeline ⟨"crt-c", "main", "repo1", "mystery", "main", "repo2"⟩
            (.ok (mkWorkload [] true)) ⟨0, 0, 0, 0, 0, 0, "", 0, 0, 0, 0, 0, ""⟩ ∧
        ∀ t, PEvent.printTable t ∉
          comparePipeline ⟨"crt-c", "main", "repo1", "mystery", "main", "repo2"⟩
            (.ok (mkWorkload [] true)) ⟨0, 0, 0, 0, 0, 0, "", 0, 0, 0, 0, 0, ""⟩) :=
  ⟨by decide,
   c4_amended ⟨"crt-c", "main", "repo1", "mystery", "main", "repo2"⟩
     (.ok (mkWorkload [] true)) ⟨0, 0, 0, 0, 0, 0, "", 0, 0, 0, 0, 0, ""⟩ 2
     (Or.inr rfl) (by decide)⟩

/-- C5: when everything up to and including client 1's run succeeds and the
rebuild step for client 2 exits nonzero, the pipeline stops before client 2's
benchmark is spawned, prints no comparison table, writes exactly one line to
the diagnostic stream, and exits with code 1 right after that line. -/
theorem c5_build2_failure (a : Args) (w : Workload) (env : Env) (m1 : Metrics)
    (hc1 : recognizedClient a.client1 = true) (hc2 : recognizedClient a.client2 = true)
    (hprep : env.prepExit = 0) (hf1 : env.fetchExit1 = 0) (hco1 : env.checkoutExit1 = 0)
    (hb1 : env.buildExit1 = 0) (hbench1 : env.benchExit1 = 0)
    (hm1 : parse_metrics env.benchOut1 = .ok m1)
    (hf2 : env.fetchExit2 = 0) (hco2 : env.checkoutExit2 = 0)
    (hb2 : env.buildExit2 ≠ 0) :
    comparePipeline a (.ok w) env =
        [.spawnPrep, .spawnFetch 1, .spawnCheckout 1, .spawnClear 1, .spawnBuild 1,
         .spawnBench 1, .spawnFetch 2, .spawnCheckout 2, .spawnClear 2, .spawnBuild 2,
         .errLine ("Error: Build failed for " ++ a.client2), .exitCode 1] ∧
      PEvent.spawnBench 2 ∉ comparePipeline a (.ok w) env ∧
      (∀ t, PEvent.printTable t ∉ comparePipeline a (.ok w) env) ∧
      (comparePipeline a (.ok w) env).countP isErrLine = 1 := by
  obtain ⟨bt1, hg1⟩ := (recognized_ok a.client1).mp hc1
  obtain ⟨bt2, hg2⟩ := (recognized_ok a.client2).mp hc2
  have htr : comparePipeline a (.ok w) env =
      [.spawnPrep, .spawnFetch 1, .spawnCheckout 1, .spawnClear 1, .spawnBuild 1,
       .spawnBench 1, .spawnFetch 2, .spawnCheckout 2, .spawnClear 2, .spawnBuild 2,
       .errLine ("Error: Build failed for " ++ a.client2), .exitCode 1] := by
    unfold comparePipeline
    rw [hprep, hf1, hco1, hf2, hco2]
    simp only [prep_files, checkout_branch, rebuild_client, run_benchmark, andThen,
      hg1, hg2, hc1, hc2, hb1, hbench1, hb2, hm1, if_true, if_false]
    simp [andThen, hm1]
    rw [if_neg hb2]
    rfl
  refine ⟨htr, ?_, ?_, ?_⟩
  · rw [htr]
    simp
  · intro t
    rw [htr]
    simp
  · rw [htr]
    rfl

/-- Witness for C5 at a concrete argument set and environment in which the
client-2 build exits 1. -/
theorem c5_witness :
    recognizedClient "crt-c" = true ∧
      (comparePipeline ⟨"crt-c", "main", "repo1", "crt-c", "dev", "repo2"⟩
          (.ok (mkWorkload [] true)) ⟨0, 0, 0, 0, 0, 0, "", 0, 0, 0, 1, 0, ""⟩ =
        [.spawnPrep, .spawnFetch 1, .spawnCheckout 1, .spawnClear 1, .spawnBuild 1,
         .spawnBench 1, .spawnFetch 2, .spawnCheckout 2, .spawnClear 2, .spawnBuild 2,
         .errLine ("Error: Build failed for " ++ "crt-c"), .exitCode 1] ∧
        PEvent.spawnBench 2 ∉
          comparePipeline ⟨"crt-c", "main", "repo1", "crt-c", "dev", "repo2"⟩
            (.ok (mkWorkload [] true)) ⟨0, 0, 0, 0, 0, 0, "", 0, 0, 0, 1, 0, ""⟩ ∧
        (∀ t, PEvent.printTable t ∉
          comparePipeline ⟨"crt-c", "main", "repo1", "crt-c", "dev", "repo2"⟩
            (.ok (mkWorkload [] true)) ⟨0, 0, 0, 0, 0, 0, "", 0, 0, 0, 1, 0, ""⟩) ∧
        (comparePipeline ⟨"crt-c", "main", "repo1", "crt-c", "dev", "repo2"⟩
            (.ok (mkWorkload [] true)) ⟨0, 0, 0, 0, 0, 0, "", 0, 0, 0, 1, 0, ""⟩).countP
          isErrLine = 1) :=
  ⟨by decide,
   c5_build2_failure ⟨"crt-c", "main", "repo1", "crt-c", "dev", "repo2"⟩
     (mkWorkload [] true) ⟨0, 0, 0, 0, 0, 0, "", 0, 0, 0, 1, 0, ""⟩ emptyMetrics
     (by decide) (by decide) rfl rfl rfl rfl rfl (by decide) rfl rfl (by decide)⟩

end Compare
